import Mathlib

/-
Formal model of the keyboard-navigation core of a Blockly-based visual
programming editor (`core/keyboard_nav/navigation.js`).

The navigation code operates over a connection graph of blocks.  Blocks and
connections are identified by natural numbers.  The connection graph itself
(`Blockly.Block` / `Blockly.Connection`) is an external collaborator of the
navigation core; its primitives (connect, disconnect, parent/root/descendant
queries, the type-compatibility check) are modelled from the specification's
contract for it, while every function of `navigation.js` is translated
directly from the source.
-/

namespace BlocklyNav

/-- A 2-D point on the workspace. -/
structure Coordinate where
  x : Int
  y : Int
deriving DecidableEq, Repr

/-- The four connection roles of the data model. -/
inductive ConnRole
  | previous
  | next
  | input
  | output
deriving DecidableEq, Repr

abbrev BlockId := Nat
abbrev ConnId := Nat

/-- A connection point: it belongs to exactly one source block, has a role,
at most one target (the connection it is currently joined to), and an
optional list of value-type tags used by the compatibility check. -/
structure Conn where
  cid : ConnId
  sourceBlock : BlockId
  role : ConnRole
  targetConnection : Option ConnId
  checks : Option (List Nat)
deriving DecidableEq, Repr

/-- A block: its connection points (previous / next / output slots and the
input connections in declaration order), the shadow flag, and its position. -/
structure Block where
  bid : BlockId
  previousConnection : Option ConnId
  nextConnection : Option ConnId
  outputConnection : Option ConnId
  inputList : List ConnId
  shadow : Bool
  pos : Coordinate
deriving DecidableEq, Repr

/-- The connection graph: the blocks and connection points of one workspace,
plus the block currently brought to the front of the draw order. -/
structure Graph where
  blocks : List Block
  conns : List Conn
  frontBlock : Option BlockId
deriving DecidableEq, Repr

def Graph.findBlock (g : Graph) (b : BlockId) : Option Block :=
  g.blocks.find? (fun blk => blk.bid == b)

def Graph.findConn (g : Graph) (c : ConnId) : Option Conn :=
  g.conns.find? (fun cn => cn.cid == c)

/-- Default block used to totalize lookups (never reached on wellformed
inputs; the JavaScript always holds direct object references). -/
def defaultBlock (b : BlockId) : Block :=
  ⟨b, none, none, none, [], false, ⟨0, 0⟩⟩

/-- Default connection used to totalize lookups (never reached on wellformed
inputs). -/
def defaultConn (c : ConnId) : Conn :=
  ⟨c, 0, ConnRole.previous, none, none⟩

def Graph.blockD (g : Graph) (b : BlockId) : Block :=
  (g.findBlock b).getD (defaultBlock b)

def Graph.connD (g : Graph) (c : ConnId) : Conn :=
  (g.findConn c).getD (defaultConn c)

/-- Modelled from the spec: `Connection.isSuperior` of the Connection Graph
collaborator (not part of the visible source).  The roles `input` and `next`
describe a position within a parent (spec 4.4 step 5), so they are the
superior (parent-side) roles; `previous` and `output` are the inferior
(child-side) roles, matching the fallback order used by
`getInferiorConnection_` and `getTopNode_` in the visible source. -/
def isSuperiorRole : ConnRole → Bool
  | ConnRole.next => true
  | ConnRole.input => true
  | ConnRole.previous => false
  | ConnRole.output => false

def Graph.isSuperior (g : Graph) (c : ConnId) : Bool :=
  isSuperiorRole (g.connD c).role

/-- The role a connection can be joined to: previous pairs with next and
input pairs with output. -/
def oppositeRole : ConnRole → ConnRole
  | ConnRole.previous => ConnRole.next
  | ConnRole.next => ConnRole.previous
  | ConnRole.input => ConnRole.output
  | ConnRole.output => ConnRole.input

/-- Modelled from the spec: the value-type part of the compatibility check of
the Connection Graph collaborator.  A connection with no type restriction
accepts anything; otherwise the two restriction lists must intersect. -/
def checkTypeOk (a b : Conn) : Bool :=
  match a.checks, b.checks with
  | none, _ => true
  | _, none => true
  | some l1, some l2 => l1.any (fun t => l2.contains t)

/-- The structured reasons of the compatibility check (spec 7c). -/
inductive ConnectReason
  | canConnect
  | reasonSelfConnection
  | reasonWrongType
  | reasonTargetNull
  | reasonChecksFailed
  | reasonShadowParent
deriving DecidableEq, Repr

/-- Modelled from the spec: `Connection.canConnectWithReason_` of the
Connection Graph collaborator, the type-compatibility check whose exact
semantics the connection algorithm depends on (spec 2, 7c).  A join must name
a real partner, must not attach a block to itself, must pair opposite roles,
must pass the value-type check, and a shadow block must not become the parent
of a non-shadow block.  `d` is the receiving (destination) connection and `m`
the candidate. -/
def Graph.canConnectWithReason (g : Graph) (d : ConnId) (m : Option ConnId) :
    ConnectReason :=
  match m with
  | none => ConnectReason.reasonTargetNull
  | some mc =>
    let dc := g.connD d
    let mcn := g.connD mc
    if dc.sourceBlock = mcn.sourceBlock then ConnectReason.reasonSelfConnection
    else if mcn.role ≠ oppositeRole dc.role then ConnectReason.reasonWrongType
    else if ¬ checkTypeOk dc mcn then ConnectReason.reasonChecksFailed
    else
      let blockA := if isSuperiorRole dc.role then dc.sourceBlock else mcn.sourceBlock
      let blockB := if isSuperiorRole dc.role then mcn.sourceBlock else dc.sourceBlock
      if (g.blockD blockA).shadow && !(g.blockD blockB).shadow then
        ConnectReason.reasonShadowParent
      else ConnectReason.canConnect

/-- Modelled from the spec: the reason text carried by the structured
connection failure (spec 7c). -/
def reasonMessage : ConnectReason → String
  | ConnectReason.canConnect => "Unknown connection failure."
  | ConnectReason.reasonSelfConnection => "Attempted to connect a block to itself."
  | ConnectReason.reasonWrongType => "Attempt to connect incompatible types."
  | ConnectReason.reasonTargetNull => "Target connection is null."
  | ConnectReason.reasonChecksFailed => "Connection checks failed."
  | ConnectReason.reasonShadowParent => "Connecting non-shadow to shadow block."

/-- Rewrite every connection record of the graph with a function that keeps
connection identifiers unchanged. -/
def Graph.mapConns (g : Graph) (F : Conn → Conn) : Graph :=
  { g with conns := g.conns.map F }

/-- The record rewrite performed by a disconnect: clear the target of the
two sides of the severed join. -/
def clearTargetF (c t : ConnId) : Conn → Conn := fun cn =>
  if cn.cid = c ∨ cn.cid = t then { cn with targetConnection := none } else cn

/-- The record rewrite performed by a join: point the two sides of the new
join at each other. -/
def setTargetF (d m : ConnId) : Conn → Conn := fun cn =>
  if cn.cid = d then { cn with targetConnection := some m }
  else if cn.cid = m then { cn with targetConnection := some d }
  else cn

/-- Modelled from the spec: the disconnect primitive of the Connection Graph
collaborator.  Severing a join clears the target on both sides (spec 3: a
join is symmetric and mutual).  Severing an unjoined connection is a no-op
here; the JavaScript collaborator would throw, but the navigation core only
severs joined connections on wellformed states. -/
def Graph.disconnectConn (g : Graph) (c : ConnId) : Graph :=
  match (g.connD c).targetConnection with
  | none => g
  | some t => g.mapConns (clearTargetF c t)

/-- Modelled from the spec: the connect primitive of the Connection Graph
collaborator (spec 2, 3).  Joining first severs any existing join on either
side (each connection has at most one target) and then sets the two targets
to each other (the join is symmetric and mutual). -/
def Graph.connectConns (g : Graph) (d m : ConnId) : Graph :=
  ((g.disconnectConn d).disconnectConn m).mapConns (setTargetF d m)

/-- Modelled from the spec: the block move primitive of the Connection Graph
collaborator; only the block's position changes. -/
def Graph.moveTo (g : Graph) (b : BlockId) (coord : Coordinate) : Graph :=
  { g with blocks := g.blocks.map (fun blk =>
      if blk.bid = b then { blk with pos := coord } else blk) }

/-- The target joined to an optional connection slot. -/
def Graph.slotTarget (g : Graph) (oc : Option ConnId) : Option ConnId :=
  oc.bind (fun c => (g.connD c).targetConnection)

/-- The parent of a block: the source block of the connection joined to the
block's child-side (previous, else output) slot. -/
def Graph.parentOf (g : Graph) (b : BlockId) : Option BlockId :=
  match g.findBlock b with
  | none => none
  | some blk =>
    ((g.slotTarget blk.previousConnection).or
        (g.slotTarget blk.outputConnection)).map
      (fun t => (g.connD t).sourceBlock)

/-- Iterated parent lookup: the k-th strict ancestor under an abstract parent
map, or none when the chain ends earlier. -/
def iterParent (f : Nat → Option Nat) : Nat → Nat → Option Nat
  | 0, b => some b
  | k + 1, b =>
    match f b with
    | none => none
    | some p => iterParent f k p

/-- Walk the parent map for at most `k` steps and return the last block
reached (the root when the fuel suffices). -/
def chainRoot (f : Nat → Option Nat) : Nat → Nat → Nat
  | 0, b => b
  | k + 1, b =>
    match f b with
    | none => b
    | some p => chainRoot f k p

/-- Modelled from the spec: `Block.getRootBlock` of the Connection Graph
collaborator walks parent links to the top of the tree (spec 6); the walk is
bounded by the number of blocks, which suffices on acyclic graphs. -/
def Graph.getRootBlock (g : Graph) (b : BlockId) : BlockId :=
  chainRoot g.parentOf g.blocks.length b

/-- Modelled from the spec: the descendant query of the Connection Graph
collaborator (spec 4.4, 6): block `d` is among the descendants of `a`
(including `a` itself) exactly when the parent chain from `d` reaches `a`;
the search is bounded by the number of blocks, which suffices on acyclic
graphs. -/
def Graph.inDescendants (g : Graph) (a d : BlockId) : Bool :=
  (List.range (g.blocks.length + 1)).any
    (fun k => iterParent g.parentOf k d == some a)

/-- Modelled from the spec: `RenderedBlock.positionNearConnection` moves the
given root block near the destination connection before an inferior-side join
(spec 4.4); the geometry is abstracted as placing the root at the position of
the destination connection's source block. -/
def Graph.positionNearConnection (g : Graph) (root : BlockId)
    (movingConnection destConnection : ConnId) : Graph :=
  g.moveTo root (g.blockD (g.connD destConnection).sourceBlock).pos

/-- Modelled from the spec: `Connection.bumpAwayFrom_` nudges the subtree on
the inferior side away from the superior side after a disconnect (spec 4.4);
the geometry is abstracted as a fixed offset applied to the root block of the
inferior connection's source block. -/
def Graph.bumpAwayFrom (g : Graph) (inf sup : ConnId) : Graph :=
  let b := g.getRootBlock (g.connD inf).sourceBlock
  let p := (g.blockD b).pos
  g.moveTo b ⟨p.x + 10, p.y + 10⟩

/-- Modelled from the spec: `Block.bringToFront` changes only the draw order;
the front block is recorded and nothing else changes. -/
def Graph.bringToFront (g : Graph) (b : BlockId) : Graph :=
  { g with frontBlock := some b }

/-- Modelled from the spec: `Block.unplug` detaches a block from its parent
by severing its child-side (previous, then output) connection. -/
def Graph.unplug (g : Graph) (b : BlockId) : Graph :=
  let g1 :=
    match (g.blockD b).previousConnection with
    | some c => g.disconnectConn c
    | none => g
  match (g1.blockD b).outputConnection with
  | some c => g1.disconnectConn c
  | none => g1

/-- Severity levels of the logging collaborator. -/
inductive LogLevel
  | log
  | warn
  | error
deriving DecidableEq, Repr

/-- One message handed to the logging collaborator. -/
structure LogEntry where
  level : LogLevel
  msg : String
deriving DecidableEq, Repr

/-- Translation of `Blockly.navigation.getInferiorConnection_`: if the given
connection is superior, find the inferior connection on its source block
(the previous connection if present, else the output connection, else
none). -/
def getInferiorConnection_ (g : Graph) (connection : ConnId) : Option ConnId :=
  let block := g.blockD (g.connD connection).sourceBlock
  if ¬ g.isSuperior connection then some connection
  else
    match block.previousConnection with
    | some pc => some pc
    | none =>
      match block.outputConnection with
      | some oc => some oc
      | none => none

/-- Translation of `Blockly.navigation.getSuperiorConnection_`: if the given
connection is inferior, use its current target connection if joined, else
none. -/
def getSuperiorConnection_ (g : Graph) (connection : ConnId) : Option ConnId :=
  if g.isSuperior connection then some connection
  else
    match (g.connD connection).targetConnection with
    | some t => some t
    | none => none

/-- Translation of `Blockly.navigation.disconnectChild_`: if one of the
connections' source blocks is a child of the other (they share a root
block), disconnect the child side: the destination side when the destination
block is among the moving block's descendants, the moving side otherwise. -/
def disconnectChild_ (g : Graph) (movingConnection destConnection : ConnId) :
    Graph :=
  let movingBlock := (g.connD movingConnection).sourceBlock
  let destBlock := (g.connD destConnection).sourceBlock
  if g.getRootBlock movingBlock = g.getRootBlock destBlock then
    if g.inDescendants movingBlock destBlock then
      match getInferiorConnection_ g destConnection with
      | some c => g.disconnectConn c
      | none => g
    else
      match getInferiorConnection_ g movingConnection with
      | some c => g.disconnectConn c
      | none => g
  else g

/-- The tail of the success path of `moveAndConnect_` after the child
disconnect: reposition the moving block's root when the destination is
inferior, then join the two connections. -/
def finishJoin (g : Graph) (movingConnection destConnection : ConnId) : Graph :=
  let g2 :=
    if ¬ g.isSuperior destConnection then
      g.positionNearConnection
        (g.getRootBlock ((g.connD movingConnection).sourceBlock))
        movingConnection destConnection
    else g
  g2.connectConns destConnection movingConnection

/-- The whole success path of `moveAndConnect_`: disconnect a conflicting
child link, reposition if the destination is inferior, and join. -/
def connectPair (g : Graph) (movingConnection destConnection : ConnId) : Graph :=
  finishJoin (disconnectChild_ g movingConnection destConnection)
    movingConnection destConnection

/-- Translation of `Blockly.navigation.moveAndConnect_`: if the two
connections pass the compatibility check, disconnect a conflicting child,
reposition the moving root when the destination is inferior, and connect;
otherwise report failure with no change.  A missing connection on either
side is a failure (the source guards the calls with null checks that have
the same effect). -/
def moveAndConnect_ (g : Graph) (movingConnection destConnection : Option ConnId) :
    Option Graph :=
  match movingConnection, destConnection with
  | some mc, some dc =>
    if g.canConnectWithReason dc (some mc) = ConnectReason.canConnect then
      some (connectPair g mc dc)
    else none
  | _, _ => none

/-- The failure tail of `Blockly.navigation.connect`: evaluate the
compatibility check on the original connections and report its structured
reason (the source calls `checkConnection_`, which throws exactly when the
reason is not CAN_CONNECT, and logs the caught error). -/
def connectFailure (g : Graph) (movingConnection destConnection : ConnId) :
    Bool × Graph × List LogEntry :=
  match g.canConnectWithReason destConnection (some movingConnection) with
  | ConnectReason.canConnect => (false, g, [])
  | r =>
    (false, g,
      [⟨LogLevel.warn, "Connection failed with error: Error: " ++ reasonMessage r⟩])

/-- Translation of `Blockly.navigation.connect`: try the moving connection's
inferior counterpart against the destination's superior counterpart, then
the moving superior against the destination inferior, then the two
connections as given; the first attempt that connects wins, and if none
does, the failure is reported from the original connections. -/
def navConnect (g : Graph) (movingConnection destConnection : Option ConnId) :
    Bool × Graph × List LogEntry :=
  match movingConnection, destConnection with
  | some mc, some dc =>
    let movingInferior := getInferiorConnection_ g mc
    let destSuperior := getSuperiorConnection_ g dc
    let movingSuperior := getSuperiorConnection_ g mc
    let destInferior := getInferiorConnection_ g dc
    match moveAndConnect_ g movingInferior destSuperior with
    | some g1 => (true, g1, [])
    | none =>
      match moveAndConnect_ g movingSuperior destInferior with
      | some g1 => (true, g1, [])
      | none =>
        match moveAndConnect_ g (some mc) (some dc) with
        | some g1 => (true, g1, [])
        | none => connectFailure g mc dc
  | _, _ => (false, g, [])

/-- The loop of the OUTPUT_VALUE case of `insertBlock`: try the block's input
connections in declaration order, offering each connection of role input
until one connects. -/
def firstInputSuccess (g : Graph) (inputs : List ConnId) (destConnection : ConnId) :
    Option Graph :=
  match inputs with
  | [] => none
  | c :: rest =>
    if (g.connD c).role = ConnRole.input then
      match moveAndConnect_ g (some c) (some destConnection) with
      | some g1 => some g1
      | none => firstInputSuccess g rest destConnection
    else firstInputSuccess g rest destConnection

/-- Translation of `Blockly.navigation.insertBlock`: choose which connection
on the block to offer from the destination connection's role (previous gets
the block's next connection, next its previous, input its output, output the
first input-role connection in declaration order that connects), and report
failure when nothing connects. -/
def insertBlock (g : Graph) (block : BlockId) (destConnection : ConnId) :
    Bool × Graph × List LogEntry :=
  let blk := g.blockD block
  let attempt : Option Graph :=
    match (g.connD destConnection).role with
    | ConnRole.previous => moveAndConnect_ g blk.nextConnection (some destConnection)
    | ConnRole.next => moveAndConnect_ g blk.previousConnection (some destConnection)
    | ConnRole.input => moveAndConnect_ g blk.outputConnection (some destConnection)
    | ConnRole.output => firstInputSuccess g blk.inputList destConnection
  match attempt with
  | some g1 => (true, g1, [])
  | none =>
    (false, g,
      [⟨LogLevel.warn, "This block can not be inserted at the marked location."⟩])

/-- The AST node of the location model: one of the five location kinds, a
connection location keeping the role captured at creation time. -/
inductive ASTNode
  | fieldNode (b : BlockId) (f : Nat)
  | blockNode (b : BlockId)
  | connectionNode (c : ConnId) (r : ConnRole)
  | stackNode (b : BlockId)
  | workspaceNode (coord : Coordinate)
deriving DecidableEq, Repr

/-- The type tags of `Blockly.ASTNode.types` used by the navigation code. -/
inductive NodeType
  | field
  | block
  | stack
  | workspace
  | previous
  | next
  | input
  | output
deriving DecidableEq, Repr

def roleNodeType : ConnRole → NodeType
  | ConnRole.previous => NodeType.previous
  | ConnRole.next => NodeType.next
  | ConnRole.input => NodeType.input
  | ConnRole.output => NodeType.output

def ASTNode.getType : ASTNode → NodeType
  | ASTNode.fieldNode _ _ => NodeType.field
  | ASTNode.blockNode _ => NodeType.block
  | ASTNode.connectionNode _ r => roleNodeType r
  | ASTNode.stackNode _ => NodeType.stack
  | ASTNode.workspaceNode _ => NodeType.workspace

def ASTNode.isConnection : ASTNode → Bool
  | ASTNode.connectionNode _ _ => true
  | _ => false

/-- `Blockly.ASTNode.createConnectionNode`: the node captures the
connection's role as its type. -/
def createConnectionNode (g : Graph) (c : ConnId) : ASTNode :=
  ASTNode.connectionNode c (g.connD c).role

/-- The focus contexts of the state machine. -/
inductive NavContext
  | stateFlyout
  | stateWs
  | stateToolbox
deriving DecidableEq, Repr

/-- The process-wide mutable state of the navigation module: the connection
graph, the cursor and marker locations, the focus context, the toolbox and
flyout selection state, the accessibility flag, and the log stream handed to
the logging collaborator. -/
structure NavState where
  graph : Graph
  cursorNode : Option ASTNode
  markerNode : Option ASTNode
  context : NavContext
  currentCategory : Option Nat
  expandedCategories : List Nat
  flyoutBlock : Option Nat
  keyboardAccessibilityMode : Bool
  log : List LogEntry
deriving DecidableEq, Repr

/-- Append a warn-level diagnostic (`Blockly.navigation.warn`). -/
def warnSt (st : NavState) (m : String) : NavState :=
  { st with log := st.log ++ [⟨LogLevel.warn, m⟩] }

/-- Append a log-level diagnostic (`Blockly.navigation.log`). -/
def logSt (st : NavState) (m : String) : NavState :=
  { st with log := st.log ++ [⟨LogLevel.log, m⟩] }

/-- Modelled from the spec: the external collaborators of the navigation core
(spec 2, 6): the toolbox widget and its category tree, the flyout and its
block list, the selection, the cursor traversal delegate (whose per-kind
order the spec leaves open, spec 4.1, beyond being total and error-free),
and the flyout block factory. -/
structure Env where
  hasToolbox : Bool
  firstCategory : Option Nat
  flyoutVisible : Bool
  flyoutBlocks : List Nat
  selectedBlock : Option BlockId
  cursorNextFn : Option ASTNode → Option ASTNode
  cursorPrevFn : Option ASTNode → Option ASTNode
  cursorInFn : Option ASTNode → Option ASTNode
  cursorOutFn : Option ASTNode → Option ASTNode
  categoryNextShown : Nat → Option Nat
  categoryPrevShown : Nat → Option Nat
  categoryHasChildren : Nat → Bool
  categoryFirstChild : Nat → Option Nat
  categoryParent : Nat → Option Nat
  categoryCollapsible : Nat → Bool
  createBlock : Graph → Nat → Graph × BlockId

/-- Translation of `Blockly.navigation.getTopNode_`: the previous connection,
else the output connection, else the block itself. -/
def getTopNode_ (g : Graph) (block : BlockId) : ASTNode :=
  let blk := g.blockD block
  match blk.previousConnection with
  | some pc => createConnectionNode g pc
  | none =>
    match blk.outputConnection with
    | some oc => createConnectionNode g oc
    | none => ASTNode.blockNode block

/-- Translation of `Blockly.navigation.markAtCursor`: move the marker to the
cursor's current location. -/
def markAtCursor (st : NavState) : NavState :=
  { st with markerNode := st.cursorNode }

/-- Translation of `Blockly.navigation.resetFlyout` (the flyout hide is a
widget visibility change and leaves the model state unchanged). -/
def resetFlyout (st : NavState) : NavState :=
  { st with flyoutBlock := none }

/-- Translation of `Blockly.navigation.focusToolbox`.  The source
dereferences the toolbox unconditionally (`toolbox.tree_`), so with no
toolbox the call throws; that is modelled as an error result. -/
def focusToolbox (env : Env) (st : NavState) : Except String NavState :=
  let st1 := { resetFlyout st with context := NavContext.stateToolbox }
  if env.hasToolbox then
    let st2 := if st1.markerNode.isNone then markAtCursor st1 else st1
    let st3 :=
      if st2.currentCategory.isNone then
        { st2 with currentCategory := env.firstCategory }
      else st2
    Except.ok st3
  else Except.error "TypeError: cannot read tree_ of null toolbox"

/-- Translation of `Blockly.navigation.focusFlyout`: enter the flyout state,
mark at the cursor when no mark is held, and select the first block of the
flyout when it has one. -/
def focusFlyout (env : Env) (st : NavState) : NavState :=
  let st1 := { st with context := NavContext.stateFlyout }
  let st2 := if st1.markerNode.isNone then markAtCursor st1 else st1
  match env.flyoutBlocks with
  | [] => st2
  | topBlock :: _ =>
    { st2 with
      flyoutBlock := some topBlock,
      cursorNode := some (ASTNode.blockNode topBlock) }

/-- Translation of `Blockly.navigation.selectNextBlockInFlyout`. -/
def selectNextBlockInFlyout (env : Env) (st : NavState) : NavState :=
  match st.flyoutBlock with
  | none => st
  | some curBlock =>
    let blocks := env.flyoutBlocks
    match blocks.findIdx? (fun x => x == curBlock) with
    | none => st
    | some i =>
      match blocks.get? (i + 1) with
      | none => st
      | some nextBlock =>
        { st with
          flyoutBlock := some nextBlock,
          cursorNode := some (ASTNode.blockNode nextBlock) }

/-- Translation of `Blockly.navigation.selectPreviousBlockInFlyout`. -/
def selectPreviousBlockInFlyout (env : Env) (st : NavState) : NavState :=
  match st.flyoutBlock with
  | none => st
  | some curBlock =>
    let blocks := env.flyoutBlocks
    match blocks.findIdx? (fun x => x == curBlock) with
    | none => st
    | some i =>
      match i with
      | 0 => st
      | j + 1 =>
        match blocks.get? j with
        | none => st
        | some prevBlock =>
          { st with
            flyoutBlock := some prevBlock,
            cursorNode := some (ASTNode.blockNode prevBlock) }

/-- The common tail of the workspace-marker branch of `modify`: refuse shadow
blocks, unplug a parented block, and move it to the marked coordinate. -/
def moveBlockToWs (st : NavState) (block : BlockId) (coord : Coordinate) :
    Bool × NavState :=
  let g := st.graph
  if (g.blockD block).shadow then
    (false, warnSt st "Cannot move a shadow block to the workspace.")
  else
    let g1 := if (g.parentOf block).isSome then g.unplug block else g
    let g2 := g1.moveTo block coord
    (true, { st with graph := g2 })

/-- The body of `Blockly.navigation.modify` after its null checks: validate
the marker and cursor kinds, then either connect two connections, insert a
block at a marked connection, or move a block to a marked workspace
location. -/
def modifyNodes (st : NavState) (markerNode cursorNode : ASTNode) :
    Bool × NavState :=
  if markerNode.getType = NodeType.field then
    (false, warnSt st "Should not have been able to mark a field.")
  else if markerNode.getType = NodeType.block then
    (false, warnSt st "Should not have been able to mark a block.")
  else if markerNode.getType = NodeType.stack then
    (false, warnSt st "Should not have been able to mark a stack.")
  else if cursorNode.getType = NodeType.field then
    (false, warnSt st "Cannot attach a field to anything else.")
  else if cursorNode.getType = NodeType.workspace then
    (false, warnSt st "Cannot attach a workspace to anything else.")
  else if markerNode.isConnection then
    match markerNode with
    | ASTNode.connectionNode mcid _ =>
      match cursorNode with
      | ASTNode.connectionNode ccid _ =>
        let r := navConnect st.graph (some ccid) (some mcid)
        (r.1, { st with graph := r.2.1, log := st.log ++ r.2.2 })
      | ASTNode.blockNode b =>
        let r := insertBlock st.graph b mcid
        (r.1, { st with graph := r.2.1, log := st.log ++ r.2.2 })
      | ASTNode.stackNode b =>
        let r := insertBlock st.graph b mcid
        (r.1, { st with graph := r.2.1, log := st.log ++ r.2.2 })
      | _ => (false, warnSt st "Unexpected state in Blockly.navigation.modify.")
    | _ => (false, warnSt st "Unexpected state in Blockly.navigation.modify.")
  else if markerNode.getType = NodeType.workspace then
    match markerNode with
    | ASTNode.workspaceNode coord =>
      match cursorNode with
      | ASTNode.connectionNode ccid r =>
        if r = ConnRole.input ∨ r = ConnRole.next then
          (false,
            warnSt st "Cannot move a next or input connection to the workspace.")
        else moveBlockToWs st ((st.graph.connD ccid).sourceBlock) coord
      | ASTNode.blockNode b => moveBlockToWs st b coord
      | ASTNode.stackNode b => moveBlockToWs st b coord
      | _ => (false, st)
    | _ => (false, st)
  else (false, warnSt st "Unexpected state in Blockly.navigation.modify.")

/-- Translation of `Blockly.navigation.modify`: reject a missing marker or
cursor location, then run the kind checks and the three operation paths on
the two locations. -/
def modify (st : NavState) : Bool × NavState :=
  match st.markerNode with
  | none => (false, warnSt st "Cannot insert with no marked node.")
  | some markerNode =>
    match st.cursorNode with
    | none => (false, warnSt st "Cannot insert with no cursor node.")
    | some cursorNode => modifyNodes st markerNode cursorNode

theorem modify_marker_none {st : NavState} (h : st.markerNode = none) :
    modify st = (false, warnSt st "Cannot insert with no marked node.") := by
  unfold modify
  rw [h]

theorem modify_cursor_none {st : NavState} {mn : ASTNode}
    (hm : st.markerNode = some mn) (h : st.cursorNode = none) :
    modify st = (false, warnSt st "Cannot insert with no cursor node.") := by
  unfold modify
  rw [hm, h]

theorem modify_eq_nodes {st : NavState} {mn cn : ASTNode}
    (hm : st.markerNode = some mn) (hc : st.cursorNode = some cn) :
    modify st = modifyNodes st mn cn := by
  unfold modify
  rw [hm, hc]

/-- The body of `Blockly.navigation.disconnectBlocks` once the cursor node is
at hand: require a joined connection, identify the superior/inferior pair of
the live join, refuse a shadow inferior block, else sever, bump, raise, and
re-point the cursor. -/
def disconnectBlocksAt (st : NavState) : ASTNode → Except String NavState
  | ASTNode.connectionNode curConnection _ =>
    let g := st.graph
    match (g.connD curConnection).targetConnection with
    | none => Except.ok (logSt st "Cannot disconnect unconnected connection")
    | some t =>
      let superiorConnection := if g.isSuperior curConnection then curConnection else t
      let inferiorConnection := if g.isSuperior curConnection then t else curConnection
      if (g.blockD ((g.connD inferiorConnection).sourceBlock)).shadow then
        Except.ok (logSt st "Cannot disconnect a shadow block")
      else
        let g1 := g.disconnectConn superiorConnection
        let g2 := g1.bumpAwayFrom inferiorConnection superiorConnection
        let rootBlock := g2.getRootBlock ((g2.connD superiorConnection).sourceBlock)
        let g3 := g2.bringToFront rootBlock
        Except.ok
          { st with
            graph := g3,
            cursorNode := some (createConnectionNode g3 superiorConnection) }
  | _ =>
    Except.ok
      (logSt st "Cannot disconnect blocks when the cursor is not on a connection")

/-- Translation of `Blockly.navigation.disconnectBlocks`.  The source reads
`curNode.isConnection()` without a null check, so a cursor holding no
location makes the call throw; that is modelled as an error result. -/
def disconnectBlocks (st : NavState) : Except String NavState :=
  match st.cursorNode with
  | none => Except.error "TypeError: cannot read isConnection of null"
  | some curNode => disconnectBlocksAt st curNode

theorem disconnectBlocks_none {st : NavState} (h : st.cursorNode = none) :
    disconnectBlocks st =
      Except.error "TypeError: cannot read isConnection of null" := by
  unfold disconnectBlocks
  rw [h]

theorem disconnectBlocks_at {st : NavState} {cn : ASTNode}
    (h : st.cursorNode = some cn) :
    disconnectBlocks st = disconnectBlocksAt st cn := by
  unfold disconnectBlocks
  rw [h]

/-- Translation of `Blockly.navigation.focusWorkspace`: reset the flyout,
enter the workspace state, enable accessibility mode, and place the cursor
on the selected block's top node or at a fixed workspace point. -/
def focusWorkspace (env : Env) (st : NavState) : NavState :=
  let st1 :=
    { resetFlyout st with
      context := NavContext.stateWs,
      keyboardAccessibilityMode := true }
  match env.selectedBlock with
  | some blk => { st1 with cursorNode := some (getTopNode_ st1.graph blk) }
  | none => { st1 with cursorNode := some (ASTNode.workspaceNode ⟨100, 100⟩) }

/-- Translation of `Blockly.navigation.handleEnterForWS`.  The source reads
`curNode.getType()` without a null check, so a cursor holding no location
makes the call throw; that is modelled as an error result. -/
def handleEnterForWS (st : NavState) : Except String NavState :=
  match st.cursorNode with
  | none => Except.error "TypeError: cannot read getType of null"
  | some curNode =>
    if curNode.getType = NodeType.field then
      Except.ok st
    else if curNode.isConnection ∨ curNode.getType = NodeType.workspace then
      Except.ok (markAtCursor st)
    else if curNode.getType = NodeType.block then
      Except.ok (warnSt st "Cannot mark a block.")
    else if curNode.getType = NodeType.stack then
      Except.ok (warnSt st "Cannot mark a stack.")
    else Except.ok st

/-- Translation of `Blockly.navigation.insertFromFlyout`: refuse (warn) when
the flyout is missing or invisible, otherwise create the highlighted block
on the workspace, point the cursor at it, run `modify` (warning when it
fails), focus the workspace, move the cursor to the new block's top node and
remove the mark.  The source dereferences the highlighted flyout block
without a null check, modelled as an error result. -/
def insertFromFlyout (env : Env) (st : NavState) : Except String NavState :=
  if ¬ env.flyoutVisible then
    Except.ok
      (warnSt st
        "Trying to insert from the flyout when the flyout does not  exist or is not visible")
  else
    match st.flyoutBlock with
    | none => Except.error "TypeError: cannot create a block from null"
    | some fb =>
      let created := env.createBlock st.graph fb
      let st1 :=
        { st with
          graph := created.1,
          cursorNode := some (ASTNode.blockNode created.2) }
      let r := modify st1
      let st2 :=
        if r.1 then r.2
        else warnSt r.2 "Something went wrong while inserting a block from the flyout."
      let st3 := focusWorkspace env st2
      let st4 := { st3 with cursorNode := some (getTopNode_ st3.graph created.2) }
      Except.ok { st4 with markerNode := none }

/-- Translation of `Blockly.navigation.nextCategory`. -/
def nextCategory (env : Env) (st : NavState) : NavState :=
  match st.currentCategory with
  | none => st
  | some cur =>
    match env.categoryNextShown cur with
    | none => st
    | some n => { st with currentCategory := some n }

/-- Translation of `Blockly.navigation.previousCategory`. -/
def previousCategory (env : Env) (st : NavState) : NavState :=
  match st.currentCategory with
  | none => st
  | some cur =>
    match env.categoryPrevShown cur with
    | none => st
    | some p => { st with currentCategory := some p }

/-- Translation of `Blockly.navigation.inCategory`: expand a collapsed
non-leaf category, descend into an expanded one, and focus the flyout on a
leaf category. -/
def inCategory (env : Env) (st : NavState) : NavState :=
  match st.currentCategory with
  | none => st
  | some cur =>
    if env.categoryHasChildren cur then
      if ¬ st.expandedCategories.contains cur then
        { st with expandedCategories := cur :: st.expandedCategories }
      else
        match env.categoryFirstChild cur with
        | none => st
        | some child => { st with currentCategory := some child }
    else focusFlyout env st

/-- Translation of `Blockly.navigation.outCategory`: collapse an expanded
collapsible category, else move to the parent category when it is not the
tree root. -/
def outCategory (env : Env) (st : NavState) : NavState :=
  match st.currentCategory with
  | none => st
  | some cur =>
    if env.categoryHasChildren cur && st.expandedCategories.contains cur &&
        env.categoryCollapsible cur then
      { st with expandedCategories := st.expandedCategories.filter (fun x => x ≠ cur) }
    else
      match env.categoryParent cur with
      | none => st
      | some parent => { st with currentCategory := some parent }

/-- Translation of `Blockly.navigation.workspaceOnAction_`. -/
def workspaceOnAction_ (env : Env) (st : NavState) (action : String) :
    Except String (Bool × NavState) :=
  if action = "previous" then
    Except.ok (true, { st with cursorNode := env.cursorPrevFn st.cursorNode })
  else if action = "out" then
    Except.ok (true, { st with cursorNode := env.cursorOutFn st.cursorNode })
  else if action = "next" then
    Except.ok (true, { st with cursorNode := env.cursorNextFn st.cursorNode })
  else if action = "in" then
    Except.ok (true, { st with cursorNode := env.cursorInFn st.cursorNode })
  else if action = "insert" then
    Except.ok (true, (modify st).2)
  else if action = "mark" then
    (handleEnterForWS st).map (fun s => (true, s))
  else if action = "disconnect" then
    (disconnectBlocks st).map (fun s => (true, s))
  else if action = "toolbox" then
    if ¬ env.hasToolbox then Except.ok (true, focusFlyout env st)
    else (focusToolbox env st).map (fun s => (true, s))
  else Except.ok (false, st)

/-- Translation of `Blockly.navigation.flyoutOnAction_`. -/
def flyoutOnAction_ (env : Env) (st : NavState) (action : String) :
    Except String (Bool × NavState) :=
  if action = "previous" then
    Except.ok (true, selectPreviousBlockInFlyout env st)
  else if action = "out" then
    (focusToolbox env st).map (fun s => (true, s))
  else if action = "next" then
    Except.ok (true, selectNextBlockInFlyout env st)
  else if action = "mark" then
    (insertFromFlyout env st).map (fun s => (true, s))
  else if action = "exit" then
    Except.ok (true, focusWorkspace env st)
  else Except.ok (false, st)

/-- Translation of `Blockly.navigation.toolboxOnAction_`. -/
def toolboxOnAction_ (env : Env) (st : NavState) (action : String) :
    Except String (Bool × NavState) :=
  if action = "previous" then
    Except.ok (true, previousCategory env st)
  else if action = "out" then
    Except.ok (true, outCategory env st)
  else if action = "next" then
    Except.ok (true, nextCategory env st)
  else if action = "in" then
    Except.ok (true, inCategory env st)
  else if action = "exit" then
    Except.ok (true, focusWorkspace env st)
  else Except.ok (false, st)

/-- Translation of `Blockly.navigation.onBlocklyAction`: route the action to
the handler of the current focus context. -/
def onBlocklyAction (env : Env) (st : NavState) (action : String) :
    Except String (Bool × NavState) :=
  match st.context with
  | NavContext.stateWs => workspaceOnAction_ env st action
  | NavContext.stateFlyout => flyoutOnAction_ env st action
  | NavContext.stateToolbox => toolboxOnAction_ env st action

/-- Wellformedness of a connection graph: identifiers resolve to their own
records, every connection sits on a real block, a block's previous/output
slots and the connection roles agree in both directions, no block has both a
previous and an output connection, and joins are symmetric. -/
def WF (g : Graph) : Prop :=
  (∀ blk ∈ g.blocks, g.findBlock blk.bid = some blk) ∧
  (∀ cn ∈ g.conns, g.findConn cn.cid = some cn) ∧
  (∀ cn ∈ g.conns, (g.findBlock cn.sourceBlock).isSome = true) ∧
  (∀ blk ∈ g.blocks, ∀ pc, blk.previousConnection = some pc →
    (g.findConn pc).isSome = true ∧ (g.connD pc).sourceBlock = blk.bid ∧
      (g.connD pc).role = ConnRole.previous) ∧
  (∀ blk ∈ g.blocks, ∀ oc, blk.outputConnection = some oc →
    (g.findConn oc).isSome = true ∧ (g.connD oc).sourceBlock = blk.bid ∧
      (g.connD oc).role = ConnRole.output) ∧
  (∀ cn ∈ g.conns, cn.role = ConnRole.previous →
    (g.blockD cn.sourceBlock).previousConnection = some cn.cid) ∧
  (∀ cn ∈ g.conns, cn.role = ConnRole.output →
    (g.blockD cn.sourceBlock).outputConnection = some cn.cid) ∧
  (∀ blk ∈ g.blocks, blk.previousConnection = none ∨ blk.outputConnection = none) ∧
  (∀ cn ∈ g.conns, ∀ t, cn.targetConnection = some t →
    (g.findConn t).isSome = true ∧ (g.connD t).targetConnection = some cn.cid)

/-- The slot-coherence core of `WF` that is preserved by every mutation of
the navigation core (none of them changes identifiers, slots or roles). -/
def SlotsOK (g : Graph) : Prop :=
  (∀ blk ∈ g.blocks, g.findBlock blk.bid = some blk) ∧
  (∀ cn ∈ g.conns, g.findConn cn.cid = some cn) ∧
  (∀ blk ∈ g.blocks, ∀ pc, blk.previousConnection = some pc →
    (g.findConn pc).isSome = true ∧ (g.connD pc).sourceBlock = blk.bid ∧
      (g.connD pc).role = ConnRole.previous) ∧
  (∀ blk ∈ g.blocks, ∀ oc, blk.outputConnection = some oc →
    (g.findConn oc).isSome = true ∧ (g.connD oc).sourceBlock = blk.bid ∧
      (g.connD oc).role = ConnRole.output) ∧
  (∀ cn ∈ g.conns, cn.role = ConnRole.previous →
    (g.blockD cn.sourceBlock).previousConnection = some cn.cid) ∧
  (∀ cn ∈ g.conns, cn.role = ConnRole.output →
    (g.blockD cn.sourceBlock).outputConnection = some cn.cid) ∧
  (∀ blk ∈ g.blocks, blk.previousConnection = none ∨ blk.outputConnection = none)

instance (g : Graph) : Decidable (WF g) := by
  unfold WF
  infer_instance

instance (g : Graph) : Decidable (SlotsOK g) := by
  unfold SlotsOK
  infer_instance

theorem wf_slotsOK {g : Graph} (h : WF g) : SlotsOK g := by
  obtain ⟨h1, h2, _, h4, h5, h6, h7, h8, _⟩ := h
  exact ⟨h1, h2, h4, h5, h6, h7, h8⟩

/-- Every parent chain of the graph ends within as many steps as there are
blocks.  On wellformed graphs this is exactly acyclicity, and it is the
bound the source's root/descendant walks rely on. -/
def TermBound (g : Graph) : Prop :=
  ∀ blk ∈ g.blocks, iterParent g.parentOf g.blocks.length blk.bid = none

instance (g : Graph) : Decidable (TermBound g) := by
  unfold TermBound
  infer_instance

/-- Every parent chain of an abstract parent map reaches a root. -/
def Terminating (f : Nat → Option Nat) : Prop :=
  ∀ b, ∃ k, iterParent f k b = none

/-- No block is its own strict ancestor: the parent relation has no cycle. -/
def NoCycle (f : Nat → Option Nat) : Prop :=
  ∀ b k, 0 < k → iterParent f k b ≠ some b

theorem iterParent_succ_none {f : Nat → Option Nat} {b : Nat} (h : f b = none)
    (k : Nat) : iterParent f (k + 1) b = none := by
  simp [iterParent, h]

theorem iterParent_succ_some {f : Nat → Option Nat} {b p : Nat} (h : f b = some p)
    (k : Nat) : iterParent f (k + 1) b = iterParent f k p := by
  simp [iterParent, h]

theorem iterParent_add (f : Nat → Option Nat) (a c b : Nat) :
    iterParent f (a + c) b = (iterParent f a b).bind (iterParent f c) := by
  induction a generalizing b with
  | zero => simp [iterParent]
  | succ a ih =>
    have hrw : a + 1 + c = (a + c) + 1 := by omega
    rw [hrw]
    cases hfb : f b with
    | none => simp [iterParent_succ_none hfb]
    | some p =>
      rw [iterParent_succ_some hfb, iterParent_succ_some hfb, ih p]

theorem iterParent_none_mono {f : Nat → Option Nat} {b : Nat} {k m : Nat}
    (h : iterParent f k b = none) (hkm : k ≤ m) : iterParent f m b = none := by
  have hrw : m = k + (m - k) := by omega
  rw [hrw, iterParent_add, h]
  rfl

theorem iterParent_some_lt {f : Nat → Option Nat} {b x : Nat} {k j : Nat}
    (h : iterParent f k b = some x) (hj : iterParent f j b = none) : k < j := by
  by_contra hc
  have : iterParent f k b = none := iterParent_none_mono hj (by omega)
  rw [h] at this
  exact Option.noConfusion this

/-- A map that only ever removes parent links keeps every ancestor fact of
the smaller map valid in the larger one. -/
def SubParent (fSmall fBig : Nat → Option Nat) : Prop :=
  ∀ x, fSmall x = fBig x ∨ fSmall x = none

theorem subParent_refl (f : Nat → Option Nat) : SubParent f f :=
  fun x => Or.inl rfl

theorem subParent_trans {f1 f2 f3 : Nat → Option Nat} (h12 : SubParent f1 f2)
    (h23 : SubParent f2 f3) : SubParent f1 f3 := by
  intro x
  rcases h12 x with h | h
  · rcases h23 x with h' | h'
    · exact Or.inl (h.trans h')
    · exact Or.inr (h.trans h')
  · exact Or.inr h

theorem iterParent_sub_transfer {fSmall fBig : Nat → Option Nat}
    (hsub : SubParent fSmall fBig) {k b x : Nat}
    (h : iterParent fSmall k b = some x) : iterParent fBig k b = some x := by
  induction k generalizing b with
  | zero => exact h
  | succ k ih =>
    cases hfb : fSmall b with
    | none => rw [iterParent_succ_none hfb] at h; exact Option.noConfusion h
    | some p =>
      rcases hsub b with he | he
      · rw [iterParent_succ_some hfb] at h
        rw [iterParent_succ_some (he ▸ hfb)]
        exact ih h
      · rw [he] at hfb; exact Option.noConfusion hfb

theorem iterParent_sub_none {fSmall fBig : Nat → Option Nat}
    (hsub : SubParent fSmall fBig) {k b : Nat}
    (h : iterParent fBig k b = none) : iterParent fSmall k b = none := by
  induction k generalizing b with
  | zero => exact absurd h (by simp [iterParent])
  | succ k ih =>
    rcases hsub b with he | he
    · cases hfb : fBig b with
      | none => exact iterParent_succ_none (he.trans hfb) k
      | some p =>
        rw [iterParent_succ_some hfb] at h
        rw [iterParent_succ_some (he.trans hfb)]
        exact ih h
    · exact iterParent_succ_none he k

theorem terminating_sub {fSmall fBig : Nat → Option Nat}
    (hsub : SubParent fSmall fBig) (h : Terminating fBig) : Terminating fSmall := by
  intro b
  obtain ⟨k, hk⟩ := h b
  exact ⟨k, iterParent_sub_none hsub hk⟩

theorem iterParent_mul_cycle {f : Nat → Option Nat} {b : Nat} {k : Nat}
    (h : iterParent f k b = some b) (s : Nat) :
    iterParent f (s * k) b = some b := by
  induction s with
  | zero => simp [iterParent]
  | succ s ih =>
    have hrw : (s + 1) * k = s * k + k := by ring
    rw [hrw, iterParent_add, ih]
    exact h

theorem noCycle_of_terminating {f : Nat → Option Nat} (h : Terminating f) :
    NoCycle f := by
  intro b k hk hcyc
  obtain ⟨K, hK⟩ := h b
  have h1 : iterParent f (K * k) b = some b := iterParent_mul_cycle hcyc K
  have h2 : iterParent f (K * k) b = none :=
    iterParent_none_mono hK (Nat.le_mul_of_pos_right K hk)
  rw [h1] at h2
  exact Option.noConfusion h2

theorem iterParent_agree_none {f fNew : Nat → Option Nat} {c : Nat}
    (hagree : ∀ x, x ≠ c → fNew x = f x) :
    ∀ (K p : Nat), (∀ i, iterParent f i p ≠ some c) →
      iterParent f K p = none → iterParent fNew K p = none := by
  intro K
  induction K with
  | zero =>
    intro p _ hterm
    exact absurd hterm (by simp [iterParent])
  | succ K ih =>
    intro p havoid hterm
    have hpc : p ≠ c := by
      intro he
      exact havoid 0 (by simp [iterParent, he])
    cases hfp : f p with
    | none => exact iterParent_succ_none ((hagree p hpc).trans hfp) K
    | some q =>
      rw [iterParent_succ_some hfp] at hterm
      have havoidq : ∀ i, iterParent f i q ≠ some c := by
        intro i hi
        exact havoid (i + 1) (by rw [iterParent_succ_some hfp]; exact hi)
      rw [iterParent_succ_some ((hagree p hpc).trans hfp)]
      exact ih q havoidq hterm

theorem iterParent_update_none {f fNew : Nat → Option Nat} {c : Nat}
    (hagree : ∀ x, x ≠ c → fNew x = f x) {M : Nat}
    (hcM : iterParent fNew M c = none) :
    ∀ (K b : Nat), iterParent f K b = none → iterParent fNew (K + M) b = none := by
  intro K
  induction K with
  | zero =>
    intro b h
    exact absurd h (by simp [iterParent])
  | succ K ih =>
    intro b hterm
    by_cases hbc : b = c
    · subst hbc
      exact iterParent_none_mono hcM (by omega)
    · cases hfb : f b with
      | none =>
        have hNew : fNew b = none := (hagree b hbc).trans hfb
        have hr : K + 1 + M = (K + M) + 1 := by omega
        rw [hr]
        exact iterParent_succ_none hNew (K + M)
      | some q =>
        rw [iterParent_succ_some hfb] at hterm
        have hNew : fNew b = some q := (hagree b hbc).trans hfb
        have hr : K + 1 + M = (K + M) + 1 := by omega
        rw [hr, iterParent_succ_some hNew]
        exact ih q hterm

/-- Adding one parent edge `c ↦ p` to a terminating parent map keeps it
terminating as long as `c` is not an ancestor of `p`. -/
theorem terminating_update {f fNew : Nat → Option Nat} {c p : Nat}
    (hagree : ∀ x, x ≠ c → fNew x = f x) (hc : fNew c = some p)
    (havoid : ∀ i, iterParent f i p ≠ some c) (hterm : Terminating f) :
    Terminating fNew := by
  obtain ⟨Kp, hKp⟩ := hterm p
  have hp2 : iterParent fNew Kp p = none :=
    iterParent_agree_none hagree Kp p havoid hKp
  have hcM : iterParent fNew (Kp + 1) c = none := by
    rw [iterParent_succ_some hc]
    exact hp2
  intro b
  obtain ⟨K, hK⟩ := hterm b
  exact ⟨K + (Kp + 1), iterParent_update_none hagree hcM K b hK⟩

theorem chainRoot_stable {f : Nat → Option Nat} :
    ∀ (K m b : Nat), iterParent f K b = none → K ≤ m →
      chainRoot f m b = chainRoot f K b := by
  intro K
  induction K with
  | zero =>
    intro m b h _
    exact absurd h (by simp [iterParent])
  | succ K ih =>
    intro m b h hKm
    cases hfb : f b with
    | none =>
      obtain ⟨m', rfl⟩ : ∃ m', m = m' + 1 := ⟨m - 1, by omega⟩
      simp [chainRoot, hfb]
    | some p =>
      rw [iterParent_succ_some hfb] at h
      obtain ⟨m', rfl⟩ : ∃ m', m = m' + 1 := ⟨m - 1, by omega⟩
      show chainRoot f (m' + 1) b = chainRoot f (K + 1) b
      have h1 : chainRoot f (m' + 1) b = chainRoot f m' p := by simp [chainRoot, hfb]
      have h2 : chainRoot f (K + 1) b = chainRoot f K p := by simp [chainRoot, hfb]
      rw [h1, h2]
      exact ih m' p h (by omega)

theorem chainRoot_reaches {f : Nat → Option Nat} :
    ∀ (j b : Nat), chainRoot f j b = b ∨
      ∃ k, 0 < k ∧ k ≤ j ∧ iterParent f k b = some (chainRoot f j b) := by
  intro j
  induction j with
  | zero => intro b; exact Or.inl rfl
  | succ j ih =>
    intro b
    cases hfb : f b with
    | none => exact Or.inl (by simp [chainRoot, hfb])
    | some p =>
      have hstep : chainRoot f (j + 1) b = chainRoot f j p := by simp [chainRoot, hfb]
      rcases ih p with hp | ⟨k, hk0, hkj, hki⟩
      · refine Or.inr ⟨1, Nat.one_pos, by omega, ?_⟩
        rw [hstep, hp]
        simp [iterParent, hfb]
      · refine Or.inr ⟨k + 1, by omega, by omega, ?_⟩
        rw [hstep, iterParent_succ_some hfb]
        exact hki

/-- On any parent map whose chains terminate within `n` steps from every
member of a parent-closed set, an ancestor has the same `n`-bounded root. -/
theorem chainRoot_eq_of_iter {f : Nat → Option Nat} {S : Nat → Prop} {n : Nat}
    (hclose : ∀ x, S x → ∀ p, f x = some p → S p)
    (hT : ∀ x, S x → iterParent f n x = none) :
    ∀ (k b a : Nat), S b → iterParent f k b = some a →
      chainRoot f n b = chainRoot f n a := by
  intro k
  induction k with
  | zero =>
    intro b a _ h
    simp only [iterParent] at h
    rw [Option.some_inj] at h
    rw [h]
  | succ k ih =>
    intro b a hSb h
    cases hfb : f b with
    | none =>
      rw [iterParent_succ_none hfb] at h
      exact Option.noConfusion h
    | some p =>
      rw [iterParent_succ_some hfb] at h
      have hSp : S p := hclose b hSb p hfb
      have hTb : iterParent f n b = none := hT b hSb
      have hn : n ≠ 0 := by
        intro h0
        rw [h0] at hTb
        simp [iterParent] at hTb
      obtain ⟨m, rfl⟩ : ∃ m, n = m + 1 := ⟨n - 1, by omega⟩
      have hTp : iterParent f m p = none := by
        rw [iterParent_succ_some hfb] at hTb
        exact hTb
      have h1 : chainRoot f (m + 1) b = chainRoot f m p := by simp [chainRoot, hfb]
      have h2 : chainRoot f (m + 1) p = chainRoot f m p :=
        chainRoot_stable m (m + 1) p hTp (by omega)
      rw [h1, ← h2]
      exact ih p a hSp h

/-- A record rewrite that changes nothing but the stored target. -/
def TargetOnly (F : Conn → Conn) : Prop :=
  ∀ cn, (F cn).cid = cn.cid ∧ (F cn).sourceBlock = cn.sourceBlock ∧
    (F cn).role = cn.role ∧ (F cn).checks = cn.checks

/-- A record rewrite that only ever erases targets. -/
def RemovesTargets (F : Conn → Conn) : Prop :=
  ∀ cn, (F cn).targetConnection = cn.targetConnection ∨
    (F cn).targetConnection = none

theorem targetOnly_clearTargetF (c t : ConnId) : TargetOnly (clearTargetF c t) := by
  intro cn
  unfold clearTargetF
  by_cases h : cn.cid = c ∨ cn.cid = t <;> simp [h]

theorem removesTargets_clearTargetF (c t : ConnId) :
    RemovesTargets (clearTargetF c t) := by
  intro cn
  unfold clearTargetF
  by_cases h : cn.cid = c ∨ cn.cid = t <;> simp [h]

theorem targetOnly_setTargetF (d m : ConnId) : TargetOnly (setTargetF d m) := by
  intro cn
  unfold setTargetF
  by_cases h1 : cn.cid = d
  · simp [h1]
  · by_cases h2 : cn.cid = m
    · have h3 : ¬ m = d := fun he => h1 (h2.trans he)
      simp [h1, h2, h3]
    · simp [h1, h2]

theorem find?_map_comm {α : Type} (F : α → α) (p : α → Bool) (l : List α)
    (hp : ∀ a, p (F a) = p a) : (l.map F).find? p = (l.find? p).map F := by
  induction l with
  | nil => rfl
  | cons a l ih =>
    simp only [List.map_cons, List.find?_cons, hp a]
    cases p a <;> simp [ih]

theorem blocks_mapConns (g : Graph) (F : Conn → Conn) :
    (g.mapConns F).blocks = g.blocks := rfl

theorem findBlock_mapConns (g : Graph) (F : Conn → Conn) (x : BlockId) :
    (g.mapConns F).findBlock x = g.findBlock x := rfl

theorem blockD_mapConns (g : Graph) (F : Conn → Conn) (x : BlockId) :
    (g.mapConns F).blockD x = g.blockD x := rfl

theorem findConn_mapConns {F : Conn → Conn} (hF : TargetOnly F) (g : Graph)
    (c : ConnId) : (g.mapConns F).findConn c = (g.findConn c).map F := by
  unfold Graph.findConn Graph.mapConns
  exact find?_map_comm F _ g.conns (fun cn => by rw [(hF cn).1])

theorem connD_mapConns_source {F : Conn → Conn} (hF : TargetOnly F) (g : Graph)
    (c : ConnId) : ((g.mapConns F).connD c).sourceBlock = (g.connD c).sourceBlock := by
  unfold Graph.connD
  rw [findConn_mapConns hF]
  cases h : g.findConn c with
  | none => rfl
  | some cn => simp [(hF cn).2.1]

theorem connD_mapConns_role {F : Conn → Conn} (hF : TargetOnly F) (g : Graph)
    (c : ConnId) : ((g.mapConns F).connD c).role = (g.connD c).role := by
  unfold Graph.connD
  rw [findConn_mapConns hF]
  cases h : g.findConn c with
  | none => rfl
  | some cn => simp [(hF cn).2.2.1]

theorem findConn_isSome_mapConns {F : Conn → Conn} (hF : TargetOnly F) (g : Graph)
    (c : ConnId) : ((g.mapConns F).findConn c).isSome = (g.findConn c).isSome := by
  rw [findConn_mapConns hF]
  cases g.findConn c <;> rfl

/-- The block rewrite performed by a move: only the position changes. -/
def setPosF (b : BlockId) (coord : Coordinate) : Block → Block := fun blk =>
  if blk.bid = b then { blk with pos := coord } else blk

theorem moveTo_eq_mapPos (g : Graph) (b : BlockId) (coord : Coordinate) :
    g.moveTo b coord = { g with blocks := g.blocks.map (setPosF b coord) } := rfl

theorem setPosF_bid (b : BlockId) (coord : Coordinate) (blk : Block) :
    (setPosF b coord blk).bid = blk.bid := by
  unfold setPosF
  by_cases h : blk.bid = b <;> simp [h]

theorem setPosF_prev (b : BlockId) (coord : Coordinate) (blk : Block) :
    (setPosF b coord blk).previousConnection = blk.previousConnection := by
  unfold setPosF
  by_cases h : blk.bid = b <;> simp [h]

theorem setPosF_out (b : BlockId) (coord : Coordinate) (blk : Block) :
    (setPosF b coord blk).outputConnection = blk.outputConnection := by
  unfold setPosF
  by_cases h : blk.bid = b <;> simp [h]

theorem conns_moveTo (g : Graph) (b : BlockId) (coord : Coordinate) :
    (g.moveTo b coord).conns = g.conns := rfl

theorem findConn_moveTo (g : Graph) (b : BlockId) (coord : Coordinate) (c : ConnId) :
    (g.moveTo b coord).findConn c = g.findConn c := rfl

theorem connD_moveTo (g : Graph) (b : BlockId) (coord : Coordinate) (c : ConnId) :
    (g.moveTo b coord).connD c = g.connD c := rfl

theorem findBlock_moveTo (g : Graph) (b : BlockId) (coord : Coordinate) (x : BlockId) :
    (g.moveTo b coord).findBlock x = (g.findBlock x).map (setPosF b coord) := by
  unfold Graph.findBlock
  rw [moveTo_eq_mapPos]
  exact find?_map_comm (setPosF b coord) _ g.blocks
    (fun blk => by rw [setPosF_bid])

theorem slotTarget_moveTo (g : Graph) (b : BlockId) (coord : Coordinate)
    (oc : Option ConnId) : (g.moveTo b coord).slotTarget oc = g.slotTarget oc := rfl

theorem parentOf_findBlock_none {g : Graph} {x : BlockId}
    (h : g.findBlock x = none) : g.parentOf x = none := by
  unfold Graph.parentOf
  rw [h]

theorem parentOf_findBlock_some {g : Graph} {x : BlockId} {blk : Block}
    (h : g.findBlock x = some blk) :
    g.parentOf x = ((g.slotTarget blk.previousConnection).or
        (g.slotTarget blk.outputConnection)).map
      (fun t => (g.connD t).sourceBlock) := by
  unfold Graph.parentOf
  rw [h]

theorem parentOf_moveTo (g : Graph) (b : BlockId) (coord : Coordinate) (x : BlockId) :
    (g.moveTo b coord).parentOf x = g.parentOf x := by
  cases h : g.findBlock x with
  | none =>
    rw [parentOf_findBlock_none h, parentOf_findBlock_none
      (by rw [findBlock_moveTo, h]; rfl)]
  | some blk =>
    rw [parentOf_findBlock_some h, parentOf_findBlock_some
      (show (g.moveTo b coord).findBlock x = some (setPosF b coord blk) by
        rw [findBlock_moveTo, h]; rfl)]
    rw [setPosF_prev, setPosF_out]
    rfl

theorem parentOf_bringToFront (g : Graph) (b : BlockId) (x : BlockId) :
    (g.bringToFront b).parentOf x = g.parentOf x := rfl

theorem mem_of_findBlock {g : Graph} {x : BlockId} {blk : Block}
    (h : g.findBlock x = some blk) : blk ∈ g.blocks ∧ blk.bid = x := by
  refine ⟨List.mem_of_find?_eq_some h, ?_⟩
  have hp := List.find?_some h
  simpa using hp

theorem mem_of_findConn {g : Graph} {c : ConnId} {cn : Conn}
    (h : g.findConn c = some cn) : cn ∈ g.conns ∧ cn.cid = c := by
  refine ⟨List.mem_of_find?_eq_some h, ?_⟩
  have hp := List.find?_some h
  simpa using hp

theorem blockD_moveTo_prev (g : Graph) (b : BlockId) (coord : Coordinate)
    (x : BlockId) : ((g.moveTo b coord).blockD x).previousConnection =
      (g.blockD x).previousConnection := by
  unfold Graph.blockD
  rw [findBlock_moveTo]
  cases h : g.findBlock x with
  | none => rfl
  | some blk => simp [setPosF_prev]

theorem blockD_moveTo_out (g : Graph) (b : BlockId) (coord : Coordinate)
    (x : BlockId) : ((g.moveTo b coord).blockD x).outputConnection =
      (g.blockD x).outputConnection := by
  unfold Graph.blockD
  rw [findBlock_moveTo]
  cases h : g.findBlock x with
  | none => rfl
  | some blk => simp [setPosF_out]

theorem slotsOK_mapConns {F : Conn → Conn} (hF : TargetOnly F) {g : Graph}
    (h : SlotsOK g) : SlotsOK (g.mapConns F) := by
  obtain ⟨p1, p2, p3, p4, p5, p6, p7⟩ := h
  refine ⟨?_, ?_, ?_, ?_, ?_, ?_, ?_⟩
  · intro blk hm
    rw [blocks_mapConns] at hm
    rw [findBlock_mapConns]
    exact p1 blk hm
  · intro cn2 hm
    rw [show (g.mapConns F).conns = g.conns.map F from rfl] at hm
    obtain ⟨cn, hcn, rfl⟩ := List.mem_map.mp hm
    rw [(hF cn).1, findConn_mapConns hF, p2 cn hcn]
    rfl
  · intro blk hm pc hpc
    rw [blocks_mapConns] at hm
    obtain ⟨hs, hsrc, hrole⟩ := p3 blk hm pc hpc
    exact ⟨by rw [findConn_isSome_mapConns hF]; exact hs,
      by rw [connD_mapConns_source hF]; exact hsrc,
      by rw [connD_mapConns_role hF]; exact hrole⟩
  · intro blk hm oc hoc
    rw [blocks_mapConns] at hm
    obtain ⟨hs, hsrc, hrole⟩ := p4 blk hm oc hoc
    exact ⟨by rw [findConn_isSome_mapConns hF]; exact hs,
      by rw [connD_mapConns_source hF]; exact hsrc,
      by rw [connD_mapConns_role hF]; exact hrole⟩
  · intro cn2 hm hrole
    rw [show (g.mapConns F).conns = g.conns.map F from rfl] at hm
    obtain ⟨cn, hcn, rfl⟩ := List.mem_map.mp hm
    rw [blockD_mapConns, (hF cn).2.1, (hF cn).1]
    exact p5 cn hcn (by rw [← (hF cn).2.2.1]; exact hrole)
  · intro cn2 hm hrole
    rw [show (g.mapConns F).conns = g.conns.map F from rfl] at hm
    obtain ⟨cn, hcn, rfl⟩ := List.mem_map.mp hm
    rw [blockD_mapConns, (hF cn).2.1, (hF cn).1]
    exact p6 cn hcn (by rw [← (hF cn).2.2.1]; exact hrole)
  · intro blk hm
    rw [blocks_mapConns] at hm
    exact p7 blk hm

theorem slotsOK_moveTo {g : Graph} (h : SlotsOK g) (b : BlockId)
    (coord : Coordinate) : SlotsOK (g.moveTo b coord) := by
  obtain ⟨p1, p2, p3, p4, p5, p6, p7⟩ := h
  have hblocks : (g.moveTo b coord).blocks = g.blocks.map (setPosF b coord) := rfl
  refine ⟨?_, ?_, ?_, ?_, ?_, ?_, ?_⟩
  · intro blk2 hm
    rw [hblocks] at hm
    obtain ⟨blk, hblk, rfl⟩ := List.mem_map.mp hm
    rw [setPosF_bid, findBlock_moveTo, p1 blk hblk]
    rfl
  · intro cn hm
    rw [show (g.moveTo b coord).conns = g.conns from rfl] at hm
    rw [findConn_moveTo]
    exact p2 cn hm
  · intro blk2 hm pc hpc
    rw [hblocks] at hm
    obtain ⟨blk, hblk, rfl⟩ := List.mem_map.mp hm
    rw [setPosF_prev] at hpc
    obtain ⟨hs, hsrc, hrole⟩ := p3 blk hblk pc hpc
    rw [findConn_moveTo, connD_moveTo, setPosF_bid]
    exact ⟨hs, hsrc, hrole⟩
  · intro blk2 hm oc hoc
    rw [hblocks] at hm
    obtain ⟨blk, hblk, rfl⟩ := List.mem_map.mp hm
    rw [setPosF_out] at hoc
    obtain ⟨hs, hsrc, hrole⟩ := p4 blk hblk oc hoc
    rw [findConn_moveTo, connD_moveTo, setPosF_bid]
    exact ⟨hs, hsrc, hrole⟩
  · intro cn hm hrole
    rw [show (g.moveTo b coord).conns = g.conns from rfl] at hm
    rw [blockD_moveTo_prev]
    exact p5 cn hm hrole
  · intro cn hm hrole
    rw [show (g.moveTo b coord).conns = g.conns from rfl] at hm
    rw [blockD_moveTo_out]
    exact p6 cn hm hrole
  · intro blk2 hm
    rw [hblocks] at hm
    obtain ⟨blk, hblk, rfl⟩ := List.mem_map.mp hm
    rw [setPosF_prev, setPosF_out]
    exact p7 blk hblk

theorem slotTarget_mapConns_sub {F : Conn → Conn} (hF : TargetOnly F)
    (hR : RemovesTargets F) (g : Graph) (oc : Option ConnId) :
    (g.mapConns F).slotTarget oc = g.slotTarget oc ∨
      (g.mapConns F).slotTarget oc = none := by
  cases oc with
  | none => exact Or.inl rfl
  | some c =>
    show ((g.mapConns F).connD c).targetConnection = (g.connD c).targetConnection ∨
      ((g.mapConns F).connD c).targetConnection = none
    unfold Graph.connD
    rw [findConn_mapConns hF]
    cases h : g.findConn c with
    | none => exact Or.inl rfl
    | some cn =>
      simp only [Option.map_some', Option.getD_some]
      exact hR cn

theorem parentOf_mapConns_sub {F : Conn → Conn} (hF : TargetOnly F)
    (hR : RemovesTargets F) {g : Graph} (hS : SlotsOK g) :
    SubParent (g.mapConns F).parentOf g.parentOf := by
  obtain ⟨_, _, _, _, _, _, p7⟩ := hS
  intro x
  cases hfb : g.findBlock x with
  | none =>
    left
    rw [parentOf_findBlock_none (show (g.mapConns F).findBlock x = none by
          rw [findBlock_mapConns]; exact hfb),
        parentOf_findBlock_none hfb]
  | some blk =>
    obtain ⟨hmem, _⟩ := mem_of_findBlock hfb
    rw [parentOf_findBlock_some (show (g.mapConns F).findBlock x = some blk by
          rw [findBlock_mapConns]; exact hfb),
        parentOf_findBlock_some hfb]
    rcases slotTarget_mapConns_sub hF hR g blk.previousConnection with hp | hp
    · rw [hp]
      cases hpt : g.slotTarget blk.previousConnection with
      | some t =>
        left
        show some ((g.mapConns F).connD t).sourceBlock =
          some ((g.connD t).sourceBlock)
        rw [connD_mapConns_source hF]
      | none =>
        rcases slotTarget_mapConns_sub hF hR g blk.outputConnection with ho | ho
        · rw [ho]
          cases hot : g.slotTarget blk.outputConnection with
          | some t =>
            left
            show some ((g.mapConns F).connD t).sourceBlock =
              some ((g.connD t).sourceBlock)
            rw [connD_mapConns_source hF]
          | none => exact Or.inl rfl
        · rw [ho]
          exact Or.inr rfl
    · rw [hp]
      cases hpt : g.slotTarget blk.previousConnection with
      | none =>
        rcases slotTarget_mapConns_sub hF hR g blk.outputConnection with ho | ho
        · rw [ho]
          cases hot : g.slotTarget blk.outputConnection with
          | some t =>
            left
            show some ((g.mapConns F).connD t).sourceBlock =
              some ((g.connD t).sourceBlock)
            rw [connD_mapConns_source hF]
          | none => exact Or.inl rfl
        · rw [ho]
          exact Or.inr rfl
      | some t =>
        have hout : blk.outputConnection = none := by
          rcases p7 blk hmem with h8 | h8
          · rw [h8] at hpt
            exact absurd hpt (by simp [Graph.slotTarget])
          · exact h8
        right
        rw [hout]
        rfl

theorem disconnectConn_cases (g : Graph) (c : ConnId) :
    ((g.connD c).targetConnection = none ∧ g.disconnectConn c = g) ∨
      ∃ t, (g.connD c).targetConnection = some t ∧
        g.disconnectConn c = g.mapConns (clearTargetF c t) := by
  unfold Graph.disconnectConn
  cases h : (g.connD c).targetConnection with
  | none => exact Or.inl ⟨rfl, rfl⟩
  | some t => exact Or.inr ⟨t, rfl, rfl⟩

theorem parentOf_disconnect_sub {g : Graph} (hS : SlotsOK g) (c : ConnId) :
    SubParent (g.disconnectConn c).parentOf g.parentOf := by
  rcases disconnectConn_cases g c with ⟨_, h⟩ | ⟨t, _, h⟩
  · rw [h]
    exact subParent_refl _
  · rw [h]
    exact parentOf_mapConns_sub (targetOnly_clearTargetF c t)
      (removesTargets_clearTargetF c t) hS

theorem slotsOK_disconnect {g : Graph} (hS : SlotsOK g) (c : ConnId) :
    SlotsOK (g.disconnectConn c) := by
  rcases disconnectConn_cases g c with ⟨_, h⟩ | ⟨t, _, h⟩
  · rw [h]
    exact hS
  · rw [h]
    exact slotsOK_mapConns (targetOnly_clearTargetF c t) hS

theorem connD_disconnect_source (g : Graph) (c x : ConnId) :
    ((g.disconnectConn c).connD x).sourceBlock = (g.connD x).sourceBlock := by
  rcases disconnectConn_cases g c with ⟨_, h⟩ | ⟨t, _, h⟩
  · rw [h]
  · rw [h]
    exact connD_mapConns_source (targetOnly_clearTargetF c t) g x

theorem connD_disconnect_role (g : Graph) (c x : ConnId) :
    ((g.disconnectConn c).connD x).role = (g.connD x).role := by
  rcases disconnectConn_cases g c with ⟨_, h⟩ | ⟨t, _, h⟩
  · rw [h]
  · rw [h]
    exact connD_mapConns_role (targetOnly_clearTargetF c t) g x

theorem findConn_isSome_disconnect (g : Graph) (c x : ConnId) :
    ((g.disconnectConn c).findConn x).isSome = (g.findConn x).isSome := by
  rcases disconnectConn_cases g c with ⟨_, h⟩ | ⟨t, _, h⟩
  · rw [h]
  · rw [h]
    exact findConn_isSome_mapConns (targetOnly_clearTargetF c t) g x

theorem disconnectChild_shape (g : Graph) (mc dc : ConnId) :
    disconnectChild_ g mc dc = g ∨
      ∃ c, disconnectChild_ g mc dc = g.disconnectConn c := by
  simp only [disconnectChild_]
  by_cases h1 : g.getRootBlock ((g.connD mc).sourceBlock) =
      g.getRootBlock ((g.connD dc).sourceBlock)
  · rw [if_pos h1]
    by_cases h2 : g.inDescendants ((g.connD mc).sourceBlock)
        ((g.connD dc).sourceBlock) = true
    · rw [if_pos h2]
      cases h3 : getInferiorConnection_ g dc with
      | none => exact Or.inl rfl
      | some c => exact Or.inr ⟨c, rfl⟩
    · rw [if_neg h2]
      cases h3 : getInferiorConnection_ g mc with
      | none => exact Or.inl rfl
      | some c => exact Or.inr ⟨c, rfl⟩
  · rw [if_neg h1]
    exact Or.inl rfl

theorem slotsOK_disconnectChild {g : Graph} (hS : SlotsOK g) (mc dc : ConnId) :
    SlotsOK (disconnectChild_ g mc dc) := by
  rcases disconnectChild_shape g mc dc with h | ⟨c, h⟩
  · rw [h]; exact hS
  · rw [h]; exact slotsOK_disconnect hS c

theorem subParent_disconnectChild {g : Graph} (hS : SlotsOK g) (mc dc : ConnId) :
    SubParent (disconnectChild_ g mc dc).parentOf g.parentOf := by
  rcases disconnectChild_shape g mc dc with h | ⟨c, h⟩
  · rw [h]; exact subParent_refl _
  · rw [h]; exact parentOf_disconnect_sub hS c

theorem connD_disconnectChild_source (g : Graph) (mc dc x : ConnId) :
    ((disconnectChild_ g mc dc).connD x).sourceBlock = (g.connD x).sourceBlock := by
  rcases disconnectChild_shape g mc dc with h | ⟨c, h⟩
  · rw [h]
  · rw [h]; exact connD_disconnect_source g c x

theorem connD_disconnectChild_role (g : Graph) (mc dc x : ConnId) :
    ((disconnectChild_ g mc dc).connD x).role = (g.connD x).role := by
  rcases disconnectChild_shape g mc dc with h | ⟨c, h⟩
  · rw [h]
  · rw [h]; exact connD_disconnect_role g c x

theorem findConn_isSome_disconnectChild (g : Graph) (mc dc x : ConnId) :
    ((disconnectChild_ g mc dc).findConn x).isSome = (g.findConn x).isSome := by
  rcases disconnectChild_shape g mc dc with h | ⟨c, h⟩
  · rw [h]
  · rw [h]; exact findConn_isSome_disconnect g c x

theorem terminating_of_termBound {g : Graph} (hTB : TermBound g) :
    Terminating g.parentOf := by
  intro b
  cases hf : g.findBlock b with
  | none => exact ⟨1, iterParent_succ_none (parentOf_findBlock_none hf) 0⟩
  | some blk =>
    obtain ⟨hm, hbid⟩ := mem_of_findBlock hf
    refine ⟨g.blocks.length, ?_⟩
    rw [← hbid]
    exact hTB blk hm

theorem parentOf_some_shape {g : Graph} {b p : BlockId}
    (h : g.parentOf b = some p) :
    ∃ blk, g.findBlock b = some blk ∧
      ∃ c t, ((blk.previousConnection = some c ∧
            (g.connD c).targetConnection = some t) ∨
          (g.slotTarget blk.previousConnection = none ∧
            blk.outputConnection = some c ∧
            (g.connD c).targetConnection = some t)) ∧
        p = (g.connD t).sourceBlock := by
  cases hf : g.findBlock b with
  | none => rw [parentOf_findBlock_none hf] at h; exact Option.noConfusion h
  | some blk =>
    rw [parentOf_findBlock_some hf] at h
    refine ⟨blk, rfl, ?_⟩
    cases hpt : g.slotTarget blk.previousConnection with
    | some t =>
      rw [hpt] at h
      cases hpc : blk.previousConnection with
      | none =>
        rw [hpc] at hpt
        exact absurd hpt (by simp [Graph.slotTarget])
      | some c =>
        have htc : (g.connD c).targetConnection = some t := by
          rw [hpc] at hpt
          exact hpt
        refine ⟨c, t, Or.inl ⟨rfl, htc⟩, ?_⟩
        simp only [Option.or, Option.map_some', Option.some_inj] at h
        exact h.symm
    | none =>
      rw [hpt] at h
      cases hot : g.slotTarget blk.outputConnection with
      | some t =>
        rw [hot] at h
        cases hoc : blk.outputConnection with
        | none =>
          rw [hoc] at hot
          exact absurd hot (by simp [Graph.slotTarget])
        | some c =>
          have htc : (g.connD c).targetConnection = some t := by
            rw [hoc] at hot
            exact hot
          refine ⟨c, t, Or.inr ⟨rfl, rfl, htc⟩, ?_⟩
          simp only [Option.or, Option.map_some', Option.some_inj] at h
          exact h.symm
      | none =>
        rw [hot] at h
        exact absurd h (by simp [Option.or])

/-- Under wellformedness, the parent of a block whose record exists is again
a block whose record exists. -/
theorem parent_closed {g : Graph} (hWF : WF g) :
    ∀ x, (g.findBlock x).isSome = true →
      ∀ p, g.parentOf x = some p → (g.findBlock p).isSome = true := by
  obtain ⟨_, _, w3, _, _, _, _, _, w9⟩ := hWF
  intro x _ p hpar
  obtain ⟨blk, _, c, t, hcase, hp⟩ := parentOf_some_shape hpar
  have htc : (g.connD c).targetConnection = some t := by
    rcases hcase with ⟨_, h⟩ | ⟨_, _, h⟩ <;> exact h
  have hcn : ∃ cn, g.findConn c = some cn := by
    cases hfc : g.findConn c with
    | none =>
      exfalso
      rw [show g.connD c = defaultConn c by unfold Graph.connD; rw [hfc]; rfl] at htc
      exact Option.noConfusion htc
    | some cn => exact ⟨cn, rfl⟩
  obtain ⟨cn, hfc⟩ := hcn
  have hcnD : g.connD c = cn := by unfold Graph.connD; rw [hfc]; rfl
  have hmem := (mem_of_findConn hfc).1
  have h9 := w9 cn hmem t (by rw [← hcnD]; exact htc)
  have htcn : ∃ tcn, g.findConn t = some tcn := by
    cases hft : g.findConn t with
    | none => rw [hft] at h9; exact absurd h9.1 (by simp)
    | some tcn => exact ⟨tcn, rfl⟩
  obtain ⟨tcn, hft⟩ := htcn
  have := w3 tcn (mem_of_findConn hft).1
  rw [hp, show g.connD t = tcn by unfold Graph.connD; rw [hft]; rfl]
  exact this

theorem termBound_found {g : Graph} (hTB : TermBound g) :
    ∀ x, (g.findBlock x).isSome = true →
      iterParent g.parentOf g.blocks.length x = none := by
  intro x hx
  cases hf : g.findBlock x with
  | none => rw [hf] at hx; exact absurd hx (by simp)
  | some blk =>
    obtain ⟨hm, hbid⟩ := mem_of_findBlock hf
    rw [← hbid]
    exact hTB blk hm

/-- Under the chain bound, an ancestor has the same root block. -/
theorem getRootBlock_eq_of_iter {g : Graph} (hWF : WF g) (hTB : TermBound g)
    {k : Nat} {b a : BlockId} (hb : (g.findBlock b).isSome = true)
    (h : iterParent g.parentOf k b = some a) :
    g.getRootBlock b = g.getRootBlock a := by
  unfold Graph.getRootBlock
  exact chainRoot_eq_of_iter (parent_closed hWF) (termBound_found hTB) k b a hb h

theorem inDescendants_iff {g : Graph} {a d : BlockId} :
    g.inDescendants a d = true ↔
      ∃ k, k < g.blocks.length + 1 ∧ iterParent g.parentOf k d = some a := by
  unfold Graph.inDescendants
  rw [List.any_eq_true]
  constructor
  · rintro ⟨k, hk, hek⟩
    exact ⟨k, List.mem_range.mp hk, by simpa using hek⟩
  · rintro ⟨k, hk, hek⟩
    exact ⟨k, List.mem_range.mpr hk, by simpa using hek⟩

theorem inDescendants_of_iter {g : Graph} (hTB : TermBound g) {a d : BlockId}
    (hd : (g.findBlock d).isSome = true) {k : Nat}
    (h : iterParent g.parentOf k d = some a) : g.inDescendants a d = true := by
  refine inDescendants_iff.mpr ⟨k, ?_, h⟩
  have := iterParent_some_lt h (termBound_found hTB d hd)
  omega

theorem findBlock_disconnect (g : Graph) (c : ConnId) (x : BlockId) :
    (g.disconnectConn c).findBlock x = g.findBlock x := by
  rcases disconnectConn_cases g c with ⟨_, h⟩ | ⟨t, _, h⟩
  · rw [h]
  · rw [h]
    exact findBlock_mapConns g (clearTargetF c t) x

theorem blockD_disconnect (g : Graph) (c : ConnId) (x : BlockId) :
    (g.disconnectConn c).blockD x = g.blockD x := by
  unfold Graph.blockD
  rw [findBlock_disconnect]

theorem findBlock_of_blockD_prev {g : Graph} {b : BlockId} {c : ConnId}
    (h : (g.blockD b).previousConnection = some c) :
    g.findBlock b = some (g.blockD b) := by
  unfold Graph.blockD at *
  cases hf : g.findBlock b with
  | none =>
    rw [hf] at h
    exact absurd h (by simp [defaultBlock])
  | some blk => rfl

theorem findBlock_of_blockD_out {g : Graph} {b : BlockId} {c : ConnId}
    (h : (g.blockD b).outputConnection = some c) :
    g.findBlock b = some (g.blockD b) := by
  unfold Graph.blockD at *
  cases hf : g.findBlock b with
  | none =>
    rw [hf] at h
    exact absurd h (by simp [defaultBlock])
  | some blk => rfl

theorem connD_disconnect_self_target (g : Graph) (c : ConnId) :
    ((g.disconnectConn c).connD c).targetConnection = none := by
  rcases disconnectConn_cases g c with ⟨hn, h⟩ | ⟨t, _, h⟩
  · rw [h]
    exact hn
  · rw [h]
    unfold Graph.connD
    rw [findConn_mapConns (targetOnly_clearTargetF c t)]
    cases hfc : g.findConn c with
    | none => rfl
    | some cn =>
      simp only [Option.map_some', Option.getD_some]
      simp [clearTargetF, (mem_of_findConn hfc).2]

/-- After severing the connection sitting in a block's child-side slot, the
block has no parent. -/
theorem parentOf_disconnect_slot_none {g : Graph} (hS : SlotsOK g) {b : BlockId}
    {c : ConnId}
    (hslot : (g.blockD b).previousConnection = some c ∨
      (g.blockD b).outputConnection = some c) :
    (g.disconnectConn c).parentOf b = none := by
  obtain ⟨_, _, _, _, _, _, p7⟩ := hS
  have hfb : g.findBlock b = some (g.blockD b) := by
    rcases hslot with h | h
    · exact findBlock_of_blockD_prev h
    · exact findBlock_of_blockD_out h
  have hmem : g.blockD b ∈ g.blocks := (mem_of_findBlock hfb).1
  have hfb2 : (g.disconnectConn c).findBlock b = some (g.blockD b) := by
    rw [findBlock_disconnect]
    exact hfb
  rw [parentOf_findBlock_some hfb2]
  have hct : ((g.disconnectConn c).connD c).targetConnection = none :=
    connD_disconnect_self_target g c
  rcases hslot with h | h
  · have hout : (g.blockD b).outputConnection = none := by
      rcases p7 (g.blockD b) hmem with h7 | h7
      · rw [h7] at h
        exact Option.noConfusion h
      · exact h7
    rw [h, hout]
    show ((((g.disconnectConn c).connD c).targetConnection).or
      ((g.disconnectConn c).slotTarget none)).map _ = none
    rw [hct]
    rfl
  · have hprev : (g.blockD b).previousConnection = none := by
      rcases p7 (g.blockD b) hmem with h7 | h7
      · exact h7
      · rw [h7] at h
        exact Option.noConfusion h
    rw [h, hprev]
    show (((g.disconnectConn c).slotTarget none).or
      (((g.disconnectConn c).connD c).targetConnection)).map _ = none
    rw [hct]
    rfl

theorem isSuperiorRole_false_iff (r : ConnRole) :
    isSuperiorRole r = false ↔ r = ConnRole.previous ∨ r = ConnRole.output := by
  cases r <;> simp [isSuperiorRole]

/-- When a block with a connection on it has a parent, the inferior-connection
lookup for that connection names a joined child-side slot of the block. -/
theorem getInf_slot_of_parent_some {g : Graph} (hWF : WF g) {x : ConnId}
    {p : BlockId} (hx : (g.findConn x).isSome = true)
    (hpar : g.parentOf ((g.connD x).sourceBlock) = some p) :
    ∃ c0, getInferiorConnection_ g x = some c0 ∧
      (g.connD c0).targetConnection ≠ none ∧
      ((g.blockD ((g.connD x).sourceBlock)).previousConnection = some c0 ∨
        (g.blockD ((g.connD x).sourceBlock)).outputConnection = some c0) := by
  obtain ⟨_, _, _, _, _, w6, w7, w8, _⟩ := hWF
  obtain ⟨blk, hfb, c, t, hcase, _⟩ := parentOf_some_shape hpar
  have hblkD : g.blockD ((g.connD x).sourceBlock) = blk := by
    unfold Graph.blockD
    rw [hfb]
    rfl
  have hmem : blk ∈ g.blocks := (mem_of_findBlock hfb).1
  obtain ⟨cn, hfc⟩ : ∃ cn, g.findConn x = some cn := by
    cases hfc : g.findConn x with
    | none => rw [hfc] at hx; exact absurd hx (by simp)
    | some cn => exact ⟨cn, rfl⟩
  have hcnD : g.connD x = cn := by
    unfold Graph.connD
    rw [hfc]
    rfl
  have hcnMem := (mem_of_findConn hfc).1
  have hcnCid := (mem_of_findConn hfc).2
  by_cases hsup : g.isSuperior x = true
  · -- superior connection: the lookup walks the block's own slots
    have hinf : getInferiorConnection_ g x =
        match blk.previousConnection with
        | some pc => some pc
        | none =>
          match blk.outputConnection with
          | some oc => some oc
          | none => none := by
      unfold getInferiorConnection_
      rw [hblkD]
      simp [hsup]
    rcases hcase with ⟨hpc, htc⟩ | ⟨_, hoc, htc⟩
    · refine ⟨c, ?_, by rw [htc]; simp, Or.inl (by rw [hblkD]; exact hpc)⟩
      rw [hinf, hpc]
    · have hprev : blk.previousConnection = none := by
        rcases w8 blk hmem with h8 | h8
        · exact h8
        · rw [h8] at hoc
          exact Option.noConfusion hoc
      refine ⟨c, ?_, by rw [htc]; simp, Or.inr (by rw [hblkD]; exact hoc)⟩
      rw [hinf, hprev, hoc]
  · -- inferior connection: the lookup returns the connection itself, which
    -- by wellformedness is the block's own child-side slot
    have hinf : getInferiorConnection_ g x = some x := by
      unfold getInferiorConnection_
      simp [hsup]
    have hrole : (g.connD x).role = ConnRole.previous ∨
        (g.connD x).role = ConnRole.output :=
      (isSuperiorRole_false_iff _).mp (by
        unfold Graph.isSuperior at hsup
        exact Bool.eq_false_iff.mpr hsup)
    rcases hrole with hr | hr
    · have hslot := w6 cn hcnMem (by rw [← hcnD]; exact hr)
      rw [hcnCid] at hslot
      have hslot2 : blk.previousConnection = some x := by
        rw [← hblkD, hcnD]
        exact hslot
      have hout : blk.outputConnection = none := by
        rcases w8 blk hmem with h8 | h8
        · rw [h8] at hslot2
          exact Option.noConfusion hslot2
        · exact h8
      rcases hcase with ⟨hpc, htc⟩ | ⟨_, hoc, _⟩
      · rw [hslot2] at hpc
        rw [Option.some_inj] at hpc
        refine ⟨x, hinf, ?_, Or.inl (by rw [hblkD]; exact hslot2)⟩
        rw [← hpc] at htc
        rw [htc]
        simp
      · rw [hout] at hoc
        exact absurd hoc (by simp)
    · have hslot := w7 cn hcnMem (by rw [← hcnD]; exact hr)
      rw [hcnCid] at hslot
      have hslot2 : blk.outputConnection = some x := by
        rw [← hblkD, hcnD]
        exact hslot
      have hprev : blk.previousConnection = none := by
        rcases w8 blk hmem with h8 | h8
        · exact h8
        · rw [h8] at hslot2
          exact Option.noConfusion hslot2
      rcases hcase with ⟨hpc, _⟩ | ⟨_, hoc, htc⟩
      · rw [hprev] at hpc
        exact absurd hpc (by simp)
      · rw [hslot2] at hoc
        rw [Option.some_inj] at hoc
        refine ⟨x, hinf, ?_, Or.inr (by rw [hblkD]; exact hslot2)⟩
        rw [← hoc] at htc
        rw [htc]
        simp

theorem connD_setTarget_d {g : Graph} (d m : ConnId)
    (hd : (g.findConn d).isSome = true) :
    ((g.mapConns (setTargetF d m)).connD d).targetConnection = some m := by
  obtain ⟨cn, hfc⟩ : ∃ cn, g.findConn d = some cn := by
    cases hfc : g.findConn d with
    | none => rw [hfc] at hd; exact absurd hd (by simp)
    | some cn => exact ⟨cn, rfl⟩
  unfold Graph.connD
  rw [findConn_mapConns (targetOnly_setTargetF d m), hfc]
  simp [setTargetF, (mem_of_findConn hfc).2]

theorem connD_setTarget_m {g : Graph} (d m : ConnId) (hdm : d ≠ m)
    (hm : (g.findConn m).isSome = true) :
    ((g.mapConns (setTargetF d m)).connD m).targetConnection = some d := by
  obtain ⟨cn, hfc⟩ : ∃ cn, g.findConn m = some cn := by
    cases hfc : g.findConn m with
    | none => rw [hfc] at hm; exact absurd hm (by simp)
    | some cn => exact ⟨cn, rfl⟩
  unfold Graph.connD
  rw [findConn_mapConns (targetOnly_setTargetF d m), hfc]
  have hne : ¬ (m = d) := fun he => hdm he.symm
  simp [setTargetF, (mem_of_findConn hfc).2, hne]

theorem connD_setTarget_other {g : Graph} (d m : ConnId) {x : ConnId}
    (hx1 : x ≠ d) (hx2 : x ≠ m) :
    ((g.mapConns (setTargetF d m)).connD x).targetConnection =
      (g.connD x).targetConnection := by
  unfold Graph.connD
  rw [findConn_mapConns (targetOnly_setTargetF d m)]
  cases hfc : g.findConn x with
  | none => rfl
  | some cn =>
    simp only [Option.map_some', Option.getD_some]
    simp [setTargetF, (mem_of_findConn hfc).2, hx1, hx2]

/-- The join performed by `connectConns` rewrites exactly one parent edge:
the inferior side's block now has the superior side's block as its parent,
and every other block keeps the parent it had after the severing phase. -/
theorem parentOf_connectConns_char {gB : Graph} (hS : SlotsOK gB)
    {d m : ConnId} (hdm : d ≠ m) {infC supC : ConnId}
    (hset : (infC = d ∧ supC = m) ∨ (infC = m ∧ supC = d))
    (hdS : (gB.findConn d).isSome = true) (hmS : (gB.findConn m).isSome = true)
    {infB supB : BlockId}
    (hinfB : (gB.connD infC).sourceBlock = infB)
    (hsupB : (gB.connD supC).sourceBlock = supB)
    (hinfRole : (gB.connD infC).role = ConnRole.previous ∨
      (gB.connD infC).role = ConnRole.output)
    (hsupRole : isSuperiorRole ((gB.connD supC).role) = true)
    (hBne : infB ≠ supB) :
    ∀ x, (gB.connectConns d m).parentOf x =
      if x = infB then some supB
      else ((gB.disconnectConn d).disconnectConn m).parentOf x := by
  intro x
  set gSev := (gB.disconnectConn d).disconnectConn m with hgSev
  have hgJ : gB.connectConns d m = gSev.mapConns (setTargetF d m) := rfl
  have hSsev : SlotsOK gSev := slotsOK_disconnect (slotsOK_disconnect hS d) m
  have hTO := targetOnly_setTargetF d m
  -- transported record facts
  have hdS2 : (gSev.findConn d).isSome = true := by
    rw [hgSev, findConn_isSome_disconnect, findConn_isSome_disconnect]
    exact hdS
  have hmS2 : (gSev.findConn m).isSome = true := by
    rw [hgSev, findConn_isSome_disconnect, findConn_isSome_disconnect]
    exact hmS
  have hsrc2 : ∀ c, (gSev.connD c).sourceBlock = (gB.connD c).sourceBlock := by
    intro c
    rw [hgSev, connD_disconnect_source, connD_disconnect_source]
  have hrole2 : ∀ c, (gSev.connD c).role = (gB.connD c).role := by
    intro c
    rw [hgSev, connD_disconnect_role, connD_disconnect_role]
  have hinfS2 : (gSev.findConn infC).isSome = true := by
    rcases hset with ⟨h1, _⟩ | ⟨h1, _⟩ <;> rw [h1]
    · exact hdS2
    · exact hmS2
  have hsupTarget : ((gSev.mapConns (setTargetF d m)).connD infC).targetConnection =
      some supC := by
    rcases hset with ⟨h1, h2⟩ | ⟨h1, h2⟩
    · rw [h1, h2]
      exact connD_setTarget_d d m hdS2
    · rw [h1, h2]
      exact connD_setTarget_m d m hdm hmS2
  by_cases hx : x = infB
  · rw [if_pos hx, hx, hgJ]
    -- the inferior connection is the block's own child-side slot
    obtain ⟨cnI, hfcI⟩ : ∃ cnI, gSev.findConn infC = some cnI := by
      cases hfcI : gSev.findConn infC with
      | none => rw [hfcI] at hinfS2; exact absurd hinfS2 (by simp)
      | some cnI => exact ⟨cnI, rfl⟩
    have hcnID : gSev.connD infC = cnI := by
      unfold Graph.connD
      rw [hfcI]
      rfl
    have hcnIMem := (mem_of_findConn hfcI).1
    have hcnICid := (mem_of_findConn hfcI).2
    have hsrcI : cnI.sourceBlock = infB := by
      rw [← hcnID, hsrc2, hinfB]
    obtain ⟨_, _, _, _, p5, p6, p7⟩ := hSsev
    have hsupSrc : ((gSev.mapConns (setTargetF d m)).connD supC).sourceBlock = supB := by
      rw [connD_mapConns_source hTO, hsrc2, hsupB]
    rcases hinfRole with hr | hr
    · have hslot := p5 cnI hcnIMem (by rw [← hcnID, hrole2]; exact hr)
      rw [hcnICid, hsrcI] at hslot
      have hfbI : gSev.findBlock infB = some (gSev.blockD infB) :=
        findBlock_of_blockD_prev hslot
      have hfbI2 : (gSev.mapConns (setTargetF d m)).findBlock infB =
          some (gSev.blockD infB) := by
        rw [findBlock_mapConns]
        exact hfbI
      rw [parentOf_findBlock_some hfbI2, hslot]
      show ((((gSev.mapConns (setTargetF d m)).connD infC).targetConnection).or
        _).map _ = some supB
      rw [hsupTarget]
      show some (((gSev.mapConns (setTargetF d m)).connD supC).sourceBlock) = some supB
      rw [hsupSrc]
    · have hslot := p6 cnI hcnIMem (by rw [← hcnID, hrole2]; exact hr)
      rw [hcnICid, hsrcI] at hslot
      have hfbI : gSev.findBlock infB = some (gSev.blockD infB) :=
        findBlock_of_blockD_out hslot
      have hfbI2 : (gSev.mapConns (setTargetF d m)).findBlock infB =
          some (gSev.blockD infB) := by
        rw [findBlock_mapConns]
        exact hfbI
      have hprevI : (gSev.blockD infB).previousConnection = none := by
        rcases p7 (gSev.blockD infB) (mem_of_findBlock hfbI).1 with h7 | h7
        · exact h7
        · rw [h7] at hslot
          exact Option.noConfusion hslot
      rw [parentOf_findBlock_some hfbI2, hslot, hprevI]
      show (((gSev.mapConns (setTargetF d m)).slotTarget none).or
        (((gSev.mapConns (setTargetF d m)).connD infC).targetConnection)).map _ =
          some supB
      rw [hsupTarget]
      show some (((gSev.mapConns (setTargetF d m)).connD supC).sourceBlock) = some supB
      rw [hsupSrc]
  · rw [if_neg hx, hgJ]
    cases hfb : gSev.findBlock x with
    | none =>
      rw [parentOf_findBlock_none (by rw [findBlock_mapConns]; exact hfb),
        parentOf_findBlock_none hfb]
    | some blk =>
      obtain ⟨hmem, hbid⟩ := mem_of_findBlock hfb
      obtain ⟨_, _, p3, p4, _, _, _⟩ := hSsev
      have hslotNe : ∀ pc, (gSev.connD pc).role = ConnRole.previous ∨
          (gSev.connD pc).role = ConnRole.output →
          (gSev.connD pc).sourceBlock = x → pc ≠ d ∧ pc ≠ m := by
        intro pc hr hsrc
        have hneInf : pc ≠ infC := by
          intro he
          rw [he, hsrc2, hinfB] at hsrc
          exact hx hsrc.symm
        have hneSup : pc ≠ supC := by
          intro he
          rw [he, hrole2] at hr
          rcases hr with hr | hr <;> rw [hr] at hsupRole <;>
            exact Bool.noConfusion hsupRole
        rcases hset with ⟨h1, h2⟩ | ⟨h1, h2⟩
        · exact ⟨by rw [← h1]; exact hneInf, by rw [← h2]; exact hneSup⟩
        · exact ⟨by rw [← h2]; exact hneSup, by rw [← h1]; exact hneInf⟩
      have hprevEq : (gSev.mapConns (setTargetF d m)).slotTarget
          blk.previousConnection = gSev.slotTarget blk.previousConnection := by
        cases hpc : blk.previousConnection with
        | none => rfl
        | some pc =>
          have h3 := p3 blk hmem pc hpc
          obtain ⟨hne1, hne2⟩ := hslotNe pc (Or.inl h3.2.2) (by rw [h3.2.1, hbid])
          show ((gSev.mapConns (setTargetF d m)).connD pc).targetConnection =
            (gSev.connD pc).targetConnection
          exact connD_setTarget_other d m hne1 hne2
      have houtEq : (gSev.mapConns (setTargetF d m)).slotTarget
          blk.outputConnection = gSev.slotTarget blk.outputConnection := by
        cases hoc : blk.outputConnection with
        | none => rfl
        | some oc =>
          have h4 := p4 blk hmem oc hoc
          obtain ⟨hne1, hne2⟩ := hslotNe oc (Or.inr h4.2.2) (by rw [h4.2.1, hbid])
          show ((gSev.mapConns (setTargetF d m)).connD oc).targetConnection =
            (gSev.connD oc).targetConnection
          exact connD_setTarget_other d m hne1 hne2
      rw [parentOf_findBlock_some (show (gSev.mapConns (setTargetF d m)).findBlock x =
            some blk by rw [findBlock_mapConns]; exact hfb),
        parentOf_findBlock_some hfb, hprevEq, houtEq]
      cases hor : (gSev.slotTarget blk.previousConnection).or
          (gSev.slotTarget blk.outputConnection) with
      | none => rfl
      | some t =>
        show some (((gSev.mapConns (setTargetF d m)).connD t).sourceBlock) =
          some ((gSev.connD t).sourceBlock)
        rw [connD_mapConns_source hTO]

theorem canConnect_facts {g : Graph} {dc mc : ConnId}
    (h : g.canConnectWithReason dc (some mc) = ConnectReason.canConnect) :
    (g.connD dc).sourceBlock ≠ (g.connD mc).sourceBlock ∧
      (g.connD mc).role = oppositeRole ((g.connD dc).role) := by
  simp only [Graph.canConnectWithReason] at h
  by_cases h1 : (g.connD dc).sourceBlock = (g.connD mc).sourceBlock
  · rw [if_pos h1] at h
    exact absurd h (by simp)
  · rw [if_neg h1] at h
    by_cases h2 : (g.connD mc).role = oppositeRole ((g.connD dc).role)
    · exact ⟨h1, h2⟩
    · rw [if_pos h2] at h
      exact absurd h (by simp)

theorem oppositeRole_of_superior {r : ConnRole} (h : isSuperiorRole r = true) :
    oppositeRole r = ConnRole.previous ∨ oppositeRole r = ConnRole.output := by
  cases r
  · exact absurd h (by simp [isSuperiorRole])
  · exact Or.inl rfl
  · exact Or.inr rfl
  · exact absurd h (by simp [isSuperiorRole])

theorem oppositeRole_superior_of_inferior {r : ConnRole}
    (h : isSuperiorRole r = false) : isSuperiorRole (oppositeRole r) = true := by
  cases r <;> first
    | rfl
    | exact absurd h (by simp [isSuperiorRole])

theorem inferior_of_opposite_superior {r : ConnRole} (h : isSuperiorRole r = true) :
    isSuperiorRole (oppositeRole r) = false := by
  cases r <;> first
    | rfl
    | exact absurd h (by simp [isSuperiorRole])

theorem subParent_of_eqFun {f1 f2 : Nat → Option Nat} (h : ∀ x, f1 x = f2 x) :
    SubParent f1 f2 := fun x => Or.inl (h x)

theorem subParent_none_of {fS fB : Nat → Option Nat} (h : SubParent fS fB)
    {x : Nat} (hx : fB x = none) : fS x = none := by
  rcases h x with h1 | h1
  · rw [h1, hx]
  · exact h1

theorem chainRoot_none {f : Nat → Option Nat} {b : Nat} (h : f b = none)
    {n : Nat} (hn : 0 < n) : chainRoot f n b = b := by
  obtain ⟨m, rfl⟩ : ∃ m, n = m + 1 := ⟨n - 1, by omega⟩
  simp [chainRoot, h]

/-- `finishJoin` is a join after an optional repositioning that does not
change the connection structure. -/
theorem finishJoin_eq (gX : Graph) (mc dc : ConnId) :
    ∃ gPos, finishJoin gX mc dc = gPos.connectConns dc mc ∧
      (∀ x, gPos.parentOf x = gX.parentOf x) ∧
      (SlotsOK gX → SlotsOK gPos) ∧
      (∀ c, gPos.connD c = gX.connD c) ∧
      (∀ c, gPos.findConn c = gX.findConn c) := by
  simp only [finishJoin]
  by_cases h : ¬ gX.isSuperior dc = true
  · rw [if_pos h]
    refine ⟨gX.positionNearConnection
      (gX.getRootBlock ((gX.connD mc).sourceBlock)) mc dc, rfl, ?_, ?_, ?_, ?_⟩
    · intro x
      exact parentOf_moveTo gX _ _ x
    · intro hS
      exact slotsOK_moveTo hS _ _
    · intro c
      exact connD_moveTo gX _ _ c
    · intro c
      exact findConn_moveTo gX _ _ c
  · rw [if_neg h]
    exact ⟨gX, rfl, fun x => rfl, fun hS => hS, fun c => rfl, fun c => rfl⟩

theorem findBlock_isSome_of_conn {g : Graph} (hWF : WF g) {c : ConnId}
    (hc : (g.findConn c).isSome = true) :
    (g.findBlock ((g.connD c).sourceBlock)).isSome = true := by
  obtain ⟨_, _, w3, _, _, _, _, _, _⟩ := hWF
  obtain ⟨cn, hfc⟩ : ∃ cn, g.findConn c = some cn := by
    cases hfc : g.findConn c with
    | none => rw [hfc] at hc; exact absurd hc (by simp)
    | some cn => exact ⟨cn, rfl⟩
  have hcnD : g.connD c = cn := by
    unfold Graph.connD
    rw [hfc]
    rfl
  rw [hcnD]
  exact w3 cn (mem_of_findConn hfc).1

/-- What the child-disconnect pass guarantees before a join: with a shared
root it erases the parent of the descendant-side block (the destination when
the destination is among the moving block's descendants, the moving block
otherwise), and with different roots it does nothing. -/
theorem disconnectChild_parent_facts {g : Graph} (hWF : WF g) (hTB : TermBound g)
    {mc dc : ConnId} (hmS : (g.findConn mc).isSome = true)
    (hdS : (g.findConn dc).isSome = true)
    (hne : (g.connD dc).sourceBlock ≠ (g.connD mc).sourceBlock) :
    (g.getRootBlock ((g.connD mc).sourceBlock) =
        g.getRootBlock ((g.connD dc).sourceBlock) →
      (g.inDescendants ((g.connD mc).sourceBlock)
          ((g.connD dc).sourceBlock) = true →
        (disconnectChild_ g mc dc).parentOf ((g.connD dc).sourceBlock) = none) ∧
      (¬ g.inDescendants ((g.connD mc).sourceBlock)
          ((g.connD dc).sourceBlock) = true →
        (disconnectChild_ g mc dc).parentOf ((g.connD mc).sourceBlock) = none)) ∧
    (¬ (g.getRootBlock ((g.connD mc).sourceBlock) =
        g.getRootBlock ((g.connD dc).sourceBlock)) →
      disconnectChild_ g mc dc = g) := by
  set M := (g.connD mc).sourceBlock with hM
  set D := (g.connD dc).sourceBlock with hD
  refine ⟨fun hroot => ⟨fun hdesc => ?_, fun hdesc => ?_⟩, fun hroot => ?_⟩
  · -- shared root, destination is a descendant: its parent link is severed
    obtain ⟨k, _, hk⟩ := inDescendants_iff.mp hdesc
    have hk0 : k ≠ 0 := by
      intro h0
      rw [h0] at hk
      simp only [iterParent, Option.some_inj] at hk
      exact hne hk
    obtain ⟨k2, rfl⟩ : ∃ k2, k = k2 + 1 := ⟨k - 1, by omega⟩
    obtain ⟨q, hq⟩ : ∃ q, g.parentOf D = some q := by
      cases hq : g.parentOf D with
      | none =>
        rw [iterParent_succ_none hq] at hk
        exact Option.noConfusion hk
      | some q => exact ⟨q, rfl⟩
    obtain ⟨c0, hginf, _, hslot⟩ := getInf_slot_of_parent_some hWF hdS hq
    have hg1 : disconnectChild_ g mc dc = g.disconnectConn c0 := by
      simp only [disconnectChild_]
      rw [← hM, ← hD, if_pos hroot, if_pos hdesc, hginf]
    rw [hg1]
    exact parentOf_disconnect_slot_none (wf_slotsOK hWF) hslot
  · -- shared root, destination not a descendant: the moving side is severed
    have hMb := findBlock_isSome_of_conn hWF hmS
    have hn : 0 < g.blocks.length := by
      cases hf : g.findBlock M with
      | none => rw [← hM, hf] at hMb; exact absurd hMb (by simp)
      | some blk => exact List.length_pos_of_mem (mem_of_findBlock hf).1
    obtain ⟨q, hq⟩ : ∃ q, g.parentOf M = some q := by
      cases hq : g.parentOf M with
      | some q => exact ⟨q, rfl⟩
      | none =>
        exfalso
        have hrootM : g.getRootBlock M = M := by
          unfold Graph.getRootBlock
          exact chainRoot_none hq hn
        have hrootD : chainRoot g.parentOf g.blocks.length D = M := by
          have := hroot.symm.trans hrootM
          unfold Graph.getRootBlock at this
          exact this
        rcases @chainRoot_reaches g.parentOf g.blocks.length D with
          hchain | ⟨k, hk0, hkn, hkit⟩
        · exact hne (hchain.symm.trans hrootD)
        · rw [hrootD] at hkit
          exact hdesc (inDescendants_iff.mpr ⟨k, by omega, hkit⟩)
    obtain ⟨c0, hginf, _, hslot⟩ := getInf_slot_of_parent_some hWF hmS hq
    have hg1 : disconnectChild_ g mc dc = g.disconnectConn c0 := by
      simp only [disconnectChild_]
      rw [← hM, ← hD, if_pos hroot, if_neg hdesc, hginf]
    rw [hg1]
    exact parentOf_disconnect_slot_none (wf_slotsOK hWF) hslot
  · simp only [disconnectChild_]
    rw [← hM, ← hD, if_neg hroot]

/-- The central invariant: a compatible join performed by the navigation
core's success path keeps every parent chain of the graph terminating. -/
theorem connectPair_terminating {g : Graph} (hWF : WF g) (hTB : TermBound g)
    {mc dc : ConnId} (hmS : (g.findConn mc).isSome = true)
    (hdS : (g.findConn dc).isSome = true)
    (hcompat : g.canConnectWithReason dc (some mc) = ConnectReason.canConnect) :
    Terminating (connectPair g mc dc).parentOf := by
  have hS : SlotsOK g := wf_slotsOK hWF
  obtain ⟨hsrcne, hrole⟩ := canConnect_facts hcompat
  set M := (g.connD mc).sourceBlock with hM
  set D := (g.connD dc).sourceBlock with hD
  have hTerm : Terminating g.parentOf := terminating_of_termBound hTB
  have hMb : (g.findBlock M).isSome = true := findBlock_isSome_of_conn hWF hmS
  have hDb : (g.findBlock D).isSome = true := findBlock_isSome_of_conn hWF hdS
  set g1 := disconnectChild_ g mc dc with hg1
  have hS1 : SlotsOK g1 := slotsOK_disconnectChild hS mc dc
  have hsub1 : SubParent g1.parentOf g.parentOf := subParent_disconnectChild hS mc dc
  obtain ⟨gPos, hfj, hparPos, hsokPos, hconnDPos, hfindCPos⟩ := finishJoin_eq g1 mc dc
  have hSPos : SlotsOK gPos := hsokPos hS1
  have hsubPos : SubParent gPos.parentOf g1.parentOf := subParent_of_eqFun hparPos
  -- record facts at gPos
  have hdS1 : (g1.findConn dc).isSome = true := by
    rw [hg1, findConn_isSome_disconnectChild]
    exact hdS
  have hmS1 : (g1.findConn mc).isSome = true := by
    rw [hg1, findConn_isSome_disconnectChild]
    exact hmS
  have hdSPos : (gPos.findConn dc).isSome = true := by
    rw [hfindCPos]
    exact hdS1
  have hmSPos : (gPos.findConn mc).isSome = true := by
    rw [hfindCPos]
    exact hmS1
  have hsrcPos : ∀ c, (gPos.connD c).sourceBlock = (g.connD c).sourceBlock := by
    intro c
    rw [hconnDPos, hg1, connD_disconnectChild_source]
  have hrolePos : ∀ c, (gPos.connD c).role = (g.connD c).role := by
    intro c
    rw [hconnDPos, hg1, connD_disconnectChild_role]
  have hdm : dc ≠ mc := by
    intro he
    exact hsrcne (by rw [hD, hM, he])
  -- the severed graph used by the join characterization
  set gSev := (gPos.disconnectConn dc).disconnectConn mc with hgSev
  have hsubSev : SubParent gSev.parentOf g.parentOf := by
    have h1 : SubParent gSev.parentOf (gPos.disconnectConn dc).parentOf :=
      parentOf_disconnect_sub (slotsOK_disconnect hSPos dc) mc
    have h2 : SubParent (gPos.disconnectConn dc).parentOf gPos.parentOf :=
      parentOf_disconnect_sub hSPos dc
    exact subParent_trans (subParent_trans h1 h2)
      (subParent_trans hsubPos hsub1)
  have hTermSev : Terminating gSev.parentOf := terminating_sub hsubSev hTerm
  have hfacts := disconnectChild_parent_facts hWF hTB hmS hdS hsrcne
  -- whichever side is inferior, the new edge cannot close a loop
  have hmain : ∀ {infC supC : ConnId} {infB supB : BlockId},
      ((infC = dc ∧ supC = mc) ∨ (infC = mc ∧ supC = dc)) →
      (g.connD infC).sourceBlock = infB → (g.connD supC).sourceBlock = supB →
      (g.connD infC).role = ConnRole.previous ∨
        (g.connD infC).role = ConnRole.output →
      isSuperiorRole ((g.connD supC).role) = true →
      infB ≠ supB →
      Terminating (connectPair g mc dc).parentOf := by
    intro infC supC infB supB hset hinfB hsupB hinfRole hsupRole hBne
    have hchar := parentOf_connectConns_char hSPos hdm
      hset hdSPos hmSPos
      (by rw [hsrcPos]; exact hinfB)
      (by rw [hsrcPos]; exact hsupB)
      (by rw [hrolePos]; exact hinfRole)
      (by rw [hrolePos]; exact hsupRole)
      hBne
    have hcp : connectPair g mc dc = gPos.connectConns dc mc := hfj
    have havoid : ∀ i, iterParent gSev.parentOf i supB ≠ some infB := by
      intro i hiter
      have hMDpair : (infB = D ∧ supB = M) ∨ (infB = M ∧ supB = D) := by
        rcases hset with ⟨h1, h2⟩ | ⟨h1, h2⟩
        · exact Or.inl ⟨by rw [← hinfB, h1, ← hD], by rw [← hsupB, h2, ← hM]⟩
        · exact Or.inr ⟨by rw [← hinfB, h1, ← hM], by rw [← hsupB, h2, ← hD]⟩
      by_cases hroot : g.getRootBlock M = g.getRootBlock D
      · by_cases hdesc : g.inDescendants M D = true
        · have hsevD : gSev.parentOf D = none := by
            have h0 := (hfacts.1 hroot).1 hdesc
            refine subParent_none_of ?_ h0
            exact subParent_trans (subParent_trans
              (parentOf_disconnect_sub (slotsOK_disconnect hSPos dc) mc)
              (parentOf_disconnect_sub hSPos dc)) hsubPos
          rcases hMDpair with ⟨hiB, hsB⟩ | ⟨hiB, hsB⟩
          · -- inferior side is the destination: transfer to the old graph
            rw [hiB, hsB] at hiter
            have hi0 : i ≠ 0 := by
              intro h0
              rw [h0] at hiter
              simp only [iterParent, Option.some_inj] at hiter
              exact hsrcne hiter.symm
            have hold : iterParent g.parentOf i M = some D :=
              iterParent_sub_transfer hsubSev hiter
            obtain ⟨k, _, hk⟩ := inDescendants_iff.mp hdesc
            have hcyc : iterParent g.parentOf (i + k) M = some M := by
              rw [iterParent_add, hold]
              exact hk
            exact noCycle_of_terminating hTerm M (i + k) (by omega) hcyc
          · -- inferior side is the moving block: the severed parent stops the chain
            rw [hiB, hsB] at hiter
            cases i with
            | zero =>
              simp only [iterParent, Option.some_inj] at hiter
              exact hsrcne hiter
            | succ i2 =>
              rw [iterParent_succ_none hsevD] at hiter
              exact Option.noConfusion hiter
        · have hsevM : gSev.parentOf M = none := by
            have h0 := (hfacts.1 hroot).2 hdesc
            refine subParent_none_of ?_ h0
            exact subParent_trans (subParent_trans
              (parentOf_disconnect_sub (slotsOK_disconnect hSPos dc) mc)
              (parentOf_disconnect_sub hSPos dc)) hsubPos
          rcases hMDpair with ⟨hiB, hsB⟩ | ⟨hiB, hsB⟩
          · -- inferior side is the destination: its chain stops at the moving block
            rw [hiB, hsB] at hiter
            cases i with
            | zero =>
              simp only [iterParent, Option.some_inj] at hiter
              exact hsrcne hiter.symm
            | succ i2 =>
              rw [iterParent_succ_none hsevM] at hiter
              exact Option.noConfusion hiter
          · -- inferior side is the moving block: a chain would make it a descendant
            rw [hiB, hsB] at hiter
            have hold : iterParent g.parentOf i D = some M :=
              iterParent_sub_transfer hsubSev hiter
            exact hdesc (inDescendants_of_iter hTB hDb hold)
      · -- different roots: an ancestor link between the sides is impossible
        have hold : iterParent g.parentOf i supB = some infB :=
          iterParent_sub_transfer hsubSev hiter
        have hsupBb : (g.findBlock supB).isSome = true := by
          rcases hMDpair with ⟨_, hsB⟩ | ⟨_, hsB⟩ <;> rw [hsB]
          · exact hMb
          · exact hDb
        have hre := getRootBlock_eq_of_iter hWF hTB hsupBb hold
        rcases hMDpair with ⟨hiB, hsB⟩ | ⟨hiB, hsB⟩
        · rw [hiB, hsB] at hre
          exact hroot hre
        · rw [hiB, hsB] at hre
          exact hroot hre.symm
    rw [hcp]
    refine @terminating_update _ _ infB supB ?_ ?_ havoid hTermSev
    · intro x hx
      rw [hchar x, if_neg hx]
    · rw [hchar infB, if_pos rfl]
  -- orientation: which of the two connections is the superior one
  by_cases hsupd : isSuperiorRole ((g.connD dc).role) = true
  · refine @hmain mc dc M D
      (Or.inr ⟨rfl, rfl⟩) rfl rfl ?_ hsupd (fun he => hsrcne he.symm)
    rw [hrole]
    exact oppositeRole_of_superior hsupd
  · have hsupm : isSuperiorRole ((g.connD mc).role) = true := by
      rw [hrole]
      exact oppositeRole_superior_of_inferior (Bool.eq_false_iff.mpr hsupd)
    refine @hmain dc mc D M
      (Or.inl ⟨rfl, rfl⟩) rfl rfl ?_ hsupm hsrcne
    exact (isSuperiorRole_false_iff _).mp (Bool.eq_false_iff.mpr hsupd)

theorem moveAndConnect_def (g : Graph) (mc dc : ConnId) :
    moveAndConnect_ g (some mc) (some dc) =
      if g.canConnectWithReason dc (some mc) = ConnectReason.canConnect then
        some (connectPair g mc dc)
      else none := rfl

theorem moveAndConnect_some_eq {g : Graph} {mo de : Option ConnId} {g2 : Graph}
    (h : moveAndConnect_ g mo de = some g2) :
    ∃ mc dc, mo = some mc ∧ de = some dc ∧
      g.canConnectWithReason dc (some mc) = ConnectReason.canConnect ∧
      g2 = connectPair g mc dc := by
  cases mo with
  | none => exact absurd h (by simp [moveAndConnect_])
  | some mc =>
    cases de with
    | none => exact absurd h (by simp [moveAndConnect_])
    | some dc =>
      rw [moveAndConnect_def] at h
      by_cases hc : g.canConnectWithReason dc (some mc) = ConnectReason.canConnect
      · rw [if_pos hc] at h
        rw [Option.some_inj] at h
        exact ⟨mc, dc, rfl, rfl, hc, h.symm⟩
      · rw [if_neg hc] at h
        exact Option.noConfusion h

theorem getInferiorConnection_def (g : Graph) (c : ConnId) :
    getInferiorConnection_ g c =
      if ¬ g.isSuperior c = true then some c
      else
        match (g.blockD ((g.connD c).sourceBlock)).previousConnection with
        | some pc => some pc
        | none =>
          match (g.blockD ((g.connD c).sourceBlock)).outputConnection with
          | some oc => some oc
          | none => none := rfl

theorem getInferiorConnection_isSome {g : Graph} (hWF : WF g) {c c0 : ConnId}
    (hc : (g.findConn c).isSome = true)
    (h : getInferiorConnection_ g c = some c0) :
    (g.findConn c0).isSome = true := by
  have hbs := findBlock_isSome_of_conn hWF hc
  obtain ⟨_, _, _, w4, w5, _, _, _, _⟩ := hWF
  rw [getInferiorConnection_def] at h
  by_cases hsup : g.isSuperior c = true
  · rw [if_neg (by simp [hsup])] at h
    obtain ⟨blk, hfb⟩ : ∃ blk, g.findBlock ((g.connD c).sourceBlock) = some blk := by
      cases hfb : g.findBlock ((g.connD c).sourceBlock) with
      | none => rw [hfb] at hbs; exact absurd hbs (by simp)
      | some blk => exact ⟨blk, rfl⟩
    have hblkD : g.blockD ((g.connD c).sourceBlock) = blk := by
      unfold Graph.blockD
      rw [hfb]
      rfl
    rw [hblkD] at h
    have hmem := (mem_of_findBlock hfb).1
    cases hpc : blk.previousConnection with
    | some pc =>
      rw [hpc] at h
      rw [Option.some_inj] at h
      rw [← h]
      exact (w4 blk hmem pc hpc).1
    | none =>
      rw [hpc] at h
      cases hoc : blk.outputConnection with
      | some oc =>
        rw [hoc] at h
        rw [Option.some_inj] at h
        rw [← h]
        exact (w5 blk hmem oc hoc).1
      | none =>
        rw [hoc] at h
        exact Option.noConfusion h
  · rw [if_pos (by simp [hsup])] at h
    rw [Option.some_inj] at h
    rw [← h]
    exact hc

theorem getSuperiorConnection_def (g : Graph) (c : ConnId) :
    getSuperiorConnection_ g c =
      if g.isSuperior c = true then some c
      else
        match (g.connD c).targetConnection with
        | some t => some t
        | none => none := rfl

theorem getSuperiorConnection_isSome {g : Graph} (hWF : WF g) {c c0 : ConnId}
    (hc : (g.findConn c).isSome = true)
    (h : getSuperiorConnection_ g c = some c0) :
    (g.findConn c0).isSome = true := by
  obtain ⟨_, _, _, _, _, _, _, _, w9⟩ := hWF
  rw [getSuperiorConnection_def] at h
  by_cases hsup : g.isSuperior c = true
  · rw [if_pos hsup] at h
    rw [Option.some_inj] at h
    rw [← h]
    exact hc
  · rw [if_neg hsup] at h
    cases ht : (g.connD c).targetConnection with
    | none =>
      rw [ht] at h
      exact Option.noConfusion h
    | some t =>
      rw [ht] at h
      rw [Option.some_inj] at h
      obtain ⟨cn, hfc⟩ : ∃ cn, g.findConn c = some cn := by
        cases hfc : g.findConn c with
        | none => rw [hfc] at hc; exact absurd hc (by simp)
        | some cn => exact ⟨cn, rfl⟩
      have hcnD : g.connD c = cn := by
        unfold Graph.connD
        rw [hfc]
        rfl
      rw [← h]
      exact (w9 cn (mem_of_findConn hfc).1 t (by rw [← hcnD]; exact ht)).1

theorem navConnect_def (g : Graph) (mc dc : ConnId) :
    navConnect g (some mc) (some dc) =
      match moveAndConnect_ g (getInferiorConnection_ g mc)
          (getSuperiorConnection_ g dc) with
      | some g1 => (true, g1, [])
      | none =>
        match moveAndConnect_ g (getSuperiorConnection_ g mc)
            (getInferiorConnection_ g dc) with
        | some g1 => (true, g1, [])
        | none =>
          match moveAndConnect_ g (some mc) (some dc) with
          | some g1 => (true, g1, [])
          | none => connectFailure g mc dc := rfl

/-- Any join reported successful by `Blockly.navigation.connect` keeps the
parent chains terminating. -/
theorem navConnect_terminating {g : Graph} (hWF : WF g) (hTB : TermBound g)
    {mc dc : ConnId} (hmS : (g.findConn mc).isSome = true)
    (hdS : (g.findConn dc).isSome = true) {g2 : Graph} {l : List LogEntry}
    (h : navConnect g (some mc) (some dc) = (true, g2, l)) :
    Terminating g2.parentOf := by
  rw [navConnect_def] at h
  cases h1 : moveAndConnect_ g (getInferiorConnection_ g mc)
      (getSuperiorConnection_ g dc) with
  | some gg =>
    rw [h1] at h
    have hg : gg = g2 := congrArg (fun p => p.2.1) h
    obtain ⟨a, b, ha, hb, hcomp, hgg⟩ := moveAndConnect_some_eq h1
    rw [← hg, hgg]
    exact connectPair_terminating hWF hTB
      (getInferiorConnection_isSome hWF hmS ha)
      (getSuperiorConnection_isSome hWF hdS hb) hcomp
  | none =>
    rw [h1] at h
    cases h2 : moveAndConnect_ g (getSuperiorConnection_ g mc)
        (getInferiorConnection_ g dc) with
    | some gg =>
      rw [h2] at h
      have hg : gg = g2 := congrArg (fun p => p.2.1) h
      obtain ⟨a, b, ha, hb, hcomp, hgg⟩ := moveAndConnect_some_eq h2
      rw [← hg, hgg]
      exact connectPair_terminating hWF hTB
        (getSuperiorConnection_isSome hWF hmS ha)
        (getInferiorConnection_isSome hWF hdS hb) hcomp
    | none =>
      rw [h2] at h
      cases h3 : moveAndConnect_ g (some mc) (some dc) with
      | some gg =>
        rw [h3] at h
        have hg : gg = g2 := congrArg (fun p => p.2.1) h
        obtain ⟨a, b, ha, hb, hcomp, hgg⟩ := moveAndConnect_some_eq h3
        rw [Option.some_inj] at ha hb
        rw [← hg, hgg]
        exact connectPair_terminating hWF hTB (ha ▸ hmS) (hb ▸ hdS) hcomp
      | none =>
        rw [h3] at h
        exfalso
        unfold connectFailure at h
        cases hr : g.canConnectWithReason dc (some mc) <;> rw [hr] at h <;>
          exact Bool.noConfusion (congrArg Prod.fst h)

theorem parent_some_of_desc {g : Graph} {a d : BlockId} (hne : a ≠ d)
    (hdesc : g.inDescendants a d = true) : ∃ q, g.parentOf d = some q := by
  obtain ⟨k, _, hk⟩ := inDescendants_iff.mp hdesc
  have hk0 : k ≠ 0 := by
    intro h0
    rw [h0] at hk
    simp only [iterParent, Option.some_inj] at hk
    exact hne hk.symm
  obtain ⟨k2, rfl⟩ : ∃ k2, k = k2 + 1 := ⟨k - 1, by omega⟩
  cases hq : g.parentOf d with
  | none =>
    rw [iterParent_succ_none hq] at hk
    exact Option.noConfusion hk
  | some q => exact ⟨q, rfl⟩

theorem parent_some_of_shared_root_not_desc {g : Graph} {a d : BlockId}
    (ha : (g.findBlock a).isSome = true) (hne : a ≠ d)
    (hroot : g.getRootBlock a = g.getRootBlock d)
    (hdesc : ¬ g.inDescendants a d = true) : ∃ q, g.parentOf a = some q := by
  have hn : 0 < g.blocks.length := by
    cases hf : g.findBlock a with
    | none => rw [hf] at ha; exact absurd ha (by simp)
    | some blk => exact List.length_pos_of_mem (mem_of_findBlock hf).1
  cases hq : g.parentOf a with
  | some q => exact ⟨q, rfl⟩
  | none =>
    exfalso
    have hrootA : g.getRootBlock a = a := by
      unfold Graph.getRootBlock
      exact chainRoot_none hq hn
    have hrootD : chainRoot g.parentOf g.blocks.length d = a := by
      have := hroot.symm.trans hrootA
      unfold Graph.getRootBlock at this
      exact this
    rcases @chainRoot_reaches g.parentOf g.blocks.length d with
      hchain | ⟨k, _, hkn, hkit⟩
    · exact hne (hchain.symm.trans hrootD).symm
    · rw [hrootD] at hkit
      exact hdesc (inDescendants_iff.mpr ⟨k, by omega, hkit⟩)

/-- A successful `moveAndConnect_` between connections whose blocks share a
root first severs the joined child-side slot on the descendant side: the
destination side when the destination block is among the moving block's
descendants, the moving side otherwise. -/
theorem moveAndConnect_severs_descendant_side {g : Graph} (hWF : WF g)
    {mc dc : ConnId} (hmS : (g.findConn mc).isSome = true)
    (hdS : (g.findConn dc).isSome = true) {g2 : Graph}
    (h : moveAndConnect_ g (some mc) (some dc) = some g2)
    (hroot : g.getRootBlock ((g.connD mc).sourceBlock) =
      g.getRootBlock ((g.connD dc).sourceBlock)) :
    ∃ c0, ((g.inDescendants ((g.connD mc).sourceBlock)
          ((g.connD dc).sourceBlock) = true ∧
        getInferiorConnection_ g dc = some c0) ∨
      (g.inDescendants ((g.connD mc).sourceBlock)
          ((g.connD dc).sourceBlock) = false ∧
        getInferiorConnection_ g mc = some c0)) ∧
      (g.connD c0).targetConnection ≠ none ∧
      g2 = finishJoin (g.disconnectConn c0) mc dc := by
  obtain ⟨a, b, ha, hb, hcomp, hg2⟩ := moveAndConnect_some_eq h
  rw [Option.some_inj] at ha hb
  subst ha
  subst hb
  obtain ⟨hsrcne, _⟩ := canConnect_facts hcomp
  by_cases hdesc : g.inDescendants ((g.connD mc).sourceBlock)
      ((g.connD dc).sourceBlock) = true
  · obtain ⟨q, hq⟩ := parent_some_of_desc (fun he => hsrcne he.symm) hdesc
    obtain ⟨c0, hginf, htgt, _⟩ := getInf_slot_of_parent_some hWF hdS hq
    have hdcc : disconnectChild_ g mc dc = g.disconnectConn c0 := by
      simp only [disconnectChild_]
      rw [if_pos hroot, if_pos hdesc, hginf]
    refine ⟨c0, Or.inl ⟨hdesc, hginf⟩, htgt, ?_⟩
    rw [hg2, show connectPair g mc dc =
      finishJoin (disconnectChild_ g mc dc) mc dc from rfl, hdcc]
  · obtain ⟨q, hq⟩ := parent_some_of_shared_root_not_desc
      (findBlock_isSome_of_conn hWF hmS) hsrcne.symm hroot hdesc
    obtain ⟨c0, hginf, htgt, _⟩ := getInf_slot_of_parent_some hWF hmS hq
    have hdcc : disconnectChild_ g mc dc = g.disconnectConn c0 := by
      simp only [disconnectChild_]
      rw [if_pos hroot, if_neg hdesc, hginf]
    refine ⟨c0, Or.inr ⟨Bool.eq_false_iff.mpr hdesc, hginf⟩, htgt, ?_⟩
    rw [hg2, show connectPair g mc dc =
      finishJoin (disconnectChild_ g mc dc) mc dc from rfl, hdcc]

/-- Follows the words of the specification: a connection's inferior
counterpart is itself if already inferior, else its block's
previous-connection if present, else its output-connection, else none. -/
def inferiorCounterpartSpec (g : Graph) (c : ConnId) : Option ConnId :=
  if ¬ g.isSuperior c = true then some c
  else
    match (g.blockD ((g.connD c).sourceBlock)).previousConnection with
    | some pc => some pc
    | none =>
      match (g.blockD ((g.connD c).sourceBlock)).outputConnection with
      | some oc => some oc
      | none => none

/-- Follows the words of the specification: a connection's superior
counterpart is itself if already superior, else its current target if
joined, else none. -/
def superiorCounterpartSpec (g : Graph) (c : ConnId) : Option ConnId :=
  if g.isSuperior c = true then some c
  else
    match (g.connD c).targetConnection with
    | some t => some t
    | none => none

/-- A candidate pair passes when both connections exist and the graph's
compatibility check on them succeeds. -/
def pairCompat (g : Graph) : Option ConnId × Option ConnId → Bool
  | (some mc, some dc) =>
    g.canConnectWithReason dc (some mc) == ConnectReason.canConnect
  | _ => false

/-- Follows the words of the specification (claim C1): compute the moving
connection's inferior counterpart and the destination's superior
counterpart, then attempt, in this exact order, the pairs
(moving-inferior, dest-superior), (moving-superior, dest-inferior),
(moving, dest); the first pair that passes the graph's type-compatibility
check is joined, and no later pair is attempted. -/
def connectFirstCompatSpec (g : Graph) (mc dc : ConnId) :
    Bool × Graph × List LogEntry :=
  let cands : List (Option ConnId × Option ConnId) :=
    [(inferiorCounterpartSpec g mc, superiorCounterpartSpec g dc),
     (superiorCounterpartSpec g mc, inferiorCounterpartSpec g dc),
     (some mc, some dc)]
  match cands.find? (fun p => pairCompat g p) with
  | some (some a, some b) => (true, connectPair g a b, [])
  | _ => connectFailure g mc dc

theorem inferiorCounterpartSpec_eq (g : Graph) (c : ConnId) :
    inferiorCounterpartSpec g c = getInferiorConnection_ g c := rfl

theorem superiorCounterpartSpec_eq (g : Graph) (c : ConnId) :
    superiorCounterpartSpec g c = getSuperiorConnection_ g c := rfl

theorem moveAndConnect_none_of_pairCompat_false {g : Graph}
    {a b : Option ConnId} (h : pairCompat g (a, b) = false) :
    moveAndConnect_ g a b = none := by
  cases a with
  | none => simp [moveAndConnect_]
  | some x =>
    cases b with
    | none => simp [moveAndConnect_]
    | some y =>
      rw [moveAndConnect_def]
      rw [if_neg]
      intro hc
      rw [show pairCompat g (some x, some y) =
        (g.canConnectWithReason y (some x) == ConnectReason.canConnect) from rfl,
        hc] at h
      simp at h

theorem moveAndConnect_some_of_pairCompat_true {g : Graph}
    {a b : Option ConnId} (h : pairCompat g (a, b) = true) :
    ∃ x y, a = some x ∧ b = some y ∧
      moveAndConnect_ g a b = some (connectPair g x y) := by
  cases a with
  | none => exact absurd h (by simp [pairCompat])
  | some x =>
    cases b with
    | none => exact absurd h (by simp [pairCompat])
    | some y =>
      refine ⟨x, y, rfl, rfl, ?_⟩
      rw [moveAndConnect_def, if_pos]
      rw [show pairCompat g (some x, some y) =
        (g.canConnectWithReason y (some x) == ConnectReason.canConnect) from rfl]
        at h
      exact beq_iff_eq.mp h

/-- C1: for every pair of connections, `connect` computes the moving
connection's inferior counterpart and the destination's superior counterpart
(itself if inferior, else the block's previous connection, else its output
connection, else none; itself if superior, else its target if joined), and
attempts, in this exact order, (moving-inferior, dest-superior),
(moving-superior, dest-inferior), (moving, dest); the first pair passing the
graph's type-compatibility check is joined and no later pair is attempted. -/
theorem connect_tries_counterpart_pairs_in_order (g : Graph) (mc dc : ConnId) :
    navConnect g (some mc) (some dc) = connectFirstCompatSpec g mc dc := by
  rw [navConnect_def]
  show _ =
    (match List.find? (fun p => pairCompat g p)
        [(inferiorCounterpartSpec g mc, superiorCounterpartSpec g dc),
         (superiorCounterpartSpec g mc, inferiorCounterpartSpec g dc),
         (some mc, some dc)] with
      | some (some a, some b) => (true, connectPair g a b, [])
      | _ => connectFailure g mc dc)
  rw [inferiorCounterpartSpec_eq, superiorCounterpartSpec_eq,
    superiorCounterpartSpec_eq, inferiorCounterpartSpec_eq]
  cases hc1 : pairCompat g (getInferiorConnection_ g mc,
      getSuperiorConnection_ g dc) with
  | true =>
    obtain ⟨x, y, hx, hy, hmac⟩ := moveAndConnect_some_of_pairCompat_true hc1
    rw [hmac]
    have hfind : List.find? (fun p => pairCompat g p)
        [(getInferiorConnection_ g mc, getSuperiorConnection_ g dc),
         (getSuperiorConnection_ g mc, getInferiorConnection_ g dc),
         (some mc, some dc)] =
        some (getInferiorConnection_ g mc, getSuperiorConnection_ g dc) := by
      simp [List.find?, hc1]
    rw [hfind, hx, hy]
  | false =>
    rw [moveAndConnect_none_of_pairCompat_false hc1]
    cases hc2 : pairCompat g (getSuperiorConnection_ g mc,
        getInferiorConnection_ g dc) with
    | true =>
      obtain ⟨x, y, hx, hy, hmac⟩ := moveAndConnect_some_of_pairCompat_true hc2
      rw [hmac]
      have hfind : List.find? (fun p => pairCompat g p)
          [(getInferiorConnection_ g mc, getSuperiorConnection_ g dc),
           (getSuperiorConnection_ g mc, getInferiorConnection_ g dc),
           (some mc, some dc)] =
          some (getSuperiorConnection_ g mc, getInferiorConnection_ g dc) := by
        simp [List.find?, hc1, hc2]
      rw [hfind, hx, hy]
    | false =>
      rw [moveAndConnect_none_of_pairCompat_false hc2]
      cases hc3 : pairCompat g ((some mc : Option ConnId), (some dc : Option ConnId)) with
      | true =>
        obtain ⟨x, y, hx, hy, hmac⟩ := moveAndConnect_some_of_pairCompat_true hc3
        rw [hmac]
        have hfind : List.find? (fun p => pairCompat g p)
            [(getInferiorConnection_ g mc, getSuperiorConnection_ g dc),
             (getSuperiorConnection_ g mc, getInferiorConnection_ g dc),
             (some mc, some dc)] = some ((some mc : Option ConnId), (some dc : Option ConnId)) := by
          simp [List.find?, hc1, hc2, hc3]
        rw [hfind]
        rw [Option.some_inj] at hx hy
        rw [← hx, ← hy]
      | false =>
        rw [moveAndConnect_none_of_pairCompat_false hc3]
        have hfind : List.find? (fun p => pairCompat g p)
            [(getInferiorConnection_ g mc, getSuperiorConnection_ g dc),
             (getSuperiorConnection_ g mc, getInferiorConnection_ g dc),
             (some mc, some dc)] = none := by
          simp [List.find?, hc1, hc2, hc3]
        rw [hfind]

/-- C2: on a wellformed, acyclic graph, a successful join between
connections whose source blocks share a root block severs, before joining,
the joined child-side slot on the descendant side (the destination's
inferior connection if the destination block is among the moving block's
descendants, else the moving side's inferior connection), and no successful
`connect` ever produces a graph containing a parent cycle. -/
theorem connect_severs_descendant_and_never_creates_cycle :
    (∀ (g : Graph) (mc dc : ConnId) (g2 : Graph), WF g → TermBound g →
      (g.findConn mc).isSome = true → (g.findConn dc).isSome = true →
      moveAndConnect_ g (some mc) (some dc) = some g2 →
      g.getRootBlock ((g.connD mc).sourceBlock) =
        g.getRootBlock ((g.connD dc).sourceBlock) →
      ∃ c0, ((g.inDescendants ((g.connD mc).sourceBlock)
            ((g.connD dc).sourceBlock) = true ∧
          getInferiorConnection_ g dc = some c0) ∨
        (g.inDescendants ((g.connD mc).sourceBlock)
            ((g.connD dc).sourceBlock) = false ∧
          getInferiorConnection_ g mc = some c0)) ∧
        (g.connD c0).targetConnection ≠ none ∧
        g2 = finishJoin (g.disconnectConn c0) mc dc) ∧
    (∀ (g : Graph) (mc dc : ConnId) (g2 : Graph) (l : List LogEntry), WF g →
      TermBound g → (g.findConn mc).isSome = true →
      (g.findConn dc).isSome = true →
      navConnect g (some mc) (some dc) = (true, g2, l) →
      NoCycle g2.parentOf) := by
  constructor
  · intro g mc dc g2 hWF _ hm hd h hroot
    exact moveAndConnect_severs_descendant_side hWF hm hd h hroot
  · intro g mc dc g2 l hWF hTB hm hd h
    exact noCycle_of_terminating (navConnect_terminating hWF hTB hm hd h)

/-- A two-block chain used to evaluate the connection theorems: block 1 with
a next connection 10 joined to the previous connection 20 of block 2, which
also has a free next connection 11. -/
def gC2ex : Graph :=
  ⟨[⟨1, none, some 10, none, [], false, ⟨0, 0⟩⟩,
    ⟨2, some 20, some 11, none, [], false, ⟨0, 0⟩⟩],
   [⟨10, 1, ConnRole.next, some 20, none⟩,
    ⟨20, 2, ConnRole.previous, some 10, none⟩,
    ⟨11, 2, ConnRole.next, none, none⟩], none⟩

theorem connect_severs_descendant_and_never_creates_cycle_witness :
    WF gC2ex ∧ TermBound gC2ex ∧
    gC2ex.getRootBlock ((gC2ex.connD 20).sourceBlock) =
      gC2ex.getRootBlock ((gC2ex.connD 10).sourceBlock) ∧
    (∃ c0, ((gC2ex.inDescendants ((gC2ex.connD 20).sourceBlock)
          ((gC2ex.connD 10).sourceBlock) = true ∧
        getInferiorConnection_ gC2ex 10 = some c0) ∨
      (gC2ex.inDescendants ((gC2ex.connD 20).sourceBlock)
          ((gC2ex.connD 10).sourceBlock) = false ∧
        getInferiorConnection_ gC2ex 20 = some c0)) ∧
      (gC2ex.connD c0).targetConnection ≠ none ∧
      connectPair gC2ex 20 10 = finishJoin (gC2ex.disconnectConn c0) 20 10) ∧
    NoCycle (connectPair gC2ex 20 10).parentOf := by
  refine ⟨by decide, by decide, by decide, ?_, ?_⟩
  · exact connect_severs_descendant_and_never_creates_cycle.1 gC2ex 20 10
      (connectPair gC2ex 20 10) (by decide) (by decide) (by decide) (by decide)
      (by decide) (by decide)
  · exact connect_severs_descendant_and_never_creates_cycle.2 gC2ex 20 10
      (connectPair gC2ex 20 10) [] (by decide) (by decide) (by decide)
      (by decide) (by decide)

/-- C3: whenever the marker or cursor holds no location, or the marker is a
field, block or stack location, or the cursor is a field or workspace
location, `modify` reports a warning diagnostic, returns failure, and leaves
the connection graph unchanged. -/
theorem modify_rejects_invalid_marker_cursor (st : NavState)
    (h : st.markerNode = none ∨ st.cursorNode = none ∨
      (∃ mn, st.markerNode = some mn ∧ (mn.getType = NodeType.field ∨
        mn.getType = NodeType.block ∨ mn.getType = NodeType.stack)) ∨
      (∃ cn, st.cursorNode = some cn ∧ (cn.getType = NodeType.field ∨
        cn.getType = NodeType.workspace))) :
    (modify st).1 = false ∧ (modify st).2.graph = st.graph ∧
      ∃ msg, (modify st).2.log = st.log ++ [⟨LogLevel.warn, msg⟩] := by
  cases hm : st.markerNode with
  | none =>
    rw [modify_marker_none hm]
    exact ⟨rfl, rfl, "Cannot insert with no marked node.", rfl⟩
  | some mn =>
    cases hc : st.cursorNode with
    | none =>
      rw [modify_cursor_none hm hc]
      exact ⟨rfl, rfl, "Cannot insert with no cursor node.", rfl⟩
    | some cn =>
      rw [modify_eq_nodes hm hc]
      unfold modifyNodes
      by_cases h1 : mn.getType = NodeType.field
      · rw [if_pos h1]
        exact ⟨rfl, rfl, "Should not have been able to mark a field.", rfl⟩
      · rw [if_neg h1]
        by_cases h2 : mn.getType = NodeType.block
        · rw [if_pos h2]
          exact ⟨rfl, rfl, "Should not have been able to mark a block.", rfl⟩
        · rw [if_neg h2]
          by_cases h3 : mn.getType = NodeType.stack
          · rw [if_pos h3]
            exact ⟨rfl, rfl, "Should not have been able to mark a stack.", rfl⟩
          · rw [if_neg h3]
            by_cases h4 : cn.getType = NodeType.field
            · rw [if_pos h4]
              exact ⟨rfl, rfl, "Cannot attach a field to anything else.", rfl⟩
            · rw [if_neg h4]
              by_cases h5 : cn.getType = NodeType.workspace
              · rw [if_pos h5]
                exact ⟨rfl, rfl, "Cannot attach a workspace to anything else.", rfl⟩
              · exfalso
                rcases h with hx | hx | ⟨mn2, hmn2, hty⟩ | ⟨cn2, hcn2, hty⟩
                · rw [hm] at hx
                  exact Option.noConfusion hx
                · rw [hc] at hx
                  exact Option.noConfusion hx
                · rw [hm] at hmn2
                  rw [Option.some_inj] at hmn2
                  rw [← hmn2] at hty
                  rcases hty with hty | hty | hty
                  · exact h1 hty
                  · exact h2 hty
                  · exact h3 hty
                · rw [hc] at hcn2
                  rw [Option.some_inj] at hcn2
                  rw [← hcn2] at hty
                  rcases hty with hty | hty
                  · exact h4 hty
                  · exact h5 hty

/-- A tiny state with an empty marker used to evaluate the rejection path of
`modify`. -/
def stC3ex : NavState :=
  ⟨⟨[], [], none⟩, some (ASTNode.blockNode 1), none, NavContext.stateWs, none,
    [], none, false, []⟩

theorem modify_rejects_invalid_marker_cursor_witness :
    stC3ex.markerNode = none ∧
      ((modify stC3ex).1 = false ∧ (modify stC3ex).2.graph = stC3ex.graph ∧
        ∃ msg, (modify stC3ex).2.log = stC3ex.log ++ [⟨LogLevel.warn, msg⟩]) :=
  ⟨rfl, modify_rejects_invalid_marker_cursor stC3ex (Or.inl rfl)⟩

theorem connectFailure_eq {g : Graph} {mc dc : ConnId}
    (h : g.canConnectWithReason dc (some mc) ≠ ConnectReason.canConnect) :
    connectFailure g mc dc = (false, g,
      [⟨LogLevel.warn, "Connection failed with error: Error: " ++
        reasonMessage (g.canConnectWithReason dc (some mc))⟩]) := by
  unfold connectFailure
  cases hr : g.canConnectWithReason dc (some mc)
  · exact absurd hr h
  all_goals rfl

/-- C4: when `connect` finds no compatible pair among its three candidate
pairs, it returns failure, mutates nothing, and reports the diagnostic of
the graph's compatibility check on the original two connections. -/
theorem connect_failure_reports_reason_and_mutates_nothing {g : Graph}
    {mc dc : ConnId} {g2 : Graph} {l : List LogEntry}
    (h : navConnect g (some mc) (some dc) = (false, g2, l)) :
    g2 = g ∧
      g.canConnectWithReason dc (some mc) ≠ ConnectReason.canConnect ∧
      l = [⟨LogLevel.warn, "Connection failed with error: Error: " ++
        reasonMessage (g.canConnectWithReason dc (some mc))⟩] := by
  rw [navConnect_def] at h
  cases h1 : moveAndConnect_ g (getInferiorConnection_ g mc)
      (getSuperiorConnection_ g dc) with
  | some gg =>
    rw [h1] at h
    exact absurd (congrArg Prod.fst h) (by simp)
  | none =>
    rw [h1] at h
    cases h2 : moveAndConnect_ g (getSuperiorConnection_ g mc)
        (getInferiorConnection_ g dc) with
    | some gg =>
      rw [h2] at h
      exact absurd (congrArg Prod.fst h) (by simp)
    | none =>
      rw [h2] at h
      cases h3 : moveAndConnect_ g (some mc) (some dc) with
      | some gg =>
        rw [h3] at h
        exact absurd (congrArg Prod.fst h) (by simp)
      | none =>
        rw [h3] at h
        have hnc : g.canConnectWithReason dc (some mc) ≠
            ConnectReason.canConnect := by
          intro hcc
          rw [moveAndConnect_def, if_pos hcc] at h3
          exact Option.noConfusion h3
        rw [connectFailure_eq hnc] at h
        refine ⟨(congrArg (fun p => p.2.1) h).symm, hnc,
          (congrArg (fun p => p.2.2) h).symm⟩

/-- Two loose blocks whose only connections are both of role previous, so no
candidate pair is compatible. -/
def gC4ex : Graph :=
  ⟨[⟨1, some 21, none, none, [], false, ⟨0, 0⟩⟩,
    ⟨2, some 20, none, none, [], false, ⟨0, 0⟩⟩],
   [⟨21, 1, ConnRole.previous, none, none⟩,
    ⟨20, 2, ConnRole.previous, none, none⟩], none⟩

theorem connect_failure_reports_reason_and_mutates_nothing_witness :
    navConnect gC4ex (some 20) (some 21) = (false, gC4ex,
      [⟨LogLevel.warn,
        "Connection failed with error: Error: Attempt to connect incompatible types."⟩]) ∧
    (gC4ex = gC4ex ∧
      gC4ex.canConnectWithReason 21 (some 20) ≠ ConnectReason.canConnect ∧
      [(⟨LogLevel.warn,
        "Connection failed with error: Error: Attempt to connect incompatible types."⟩ : LogEntry)] =
        [⟨LogLevel.warn, "Connection failed with error: Error: " ++
          reasonMessage (gC4ex.canConnectWithReason 21 (some 20))⟩]) :=
  ⟨by decide, connect_failure_reports_reason_and_mutates_nothing (by decide)⟩

/-- The shared tail of `insertBlock`: a successful offer returns the joined
graph, a failed offer reports that the block cannot be inserted and leaves
the graph unchanged. -/
def offerResult (g : Graph) (attempt : Option Graph) :
    Bool × Graph × List LogEntry :=
  match attempt with
  | some g1 => (true, g1, [])
  | none =>
    (false, g,
      [⟨LogLevel.warn, "This block can not be inserted at the marked location."⟩])

theorem insertBlock_def (g : Graph) (b : BlockId) (d : ConnId) :
    insertBlock g b d = offerResult g
      (match (g.connD d).role with
       | ConnRole.previous => moveAndConnect_ g (g.blockD b).nextConnection (some d)
       | ConnRole.next => moveAndConnect_ g (g.blockD b).previousConnection (some d)
       | ConnRole.input => moveAndConnect_ g (g.blockD b).outputConnection (some d)
       | ConnRole.output => firstInputSuccess g (g.blockD b).inputList d) := rfl

theorem firstInputSuccess_some_iff (g : Graph) (d : ConnId) :
    ∀ (l : List ConnId) (g2 : Graph), firstInputSuccess g l d = some g2 ↔
      ∃ pre c post, l = pre ++ c :: post ∧ (g.connD c).role = ConnRole.input ∧
        moveAndConnect_ g (some c) (some d) = some g2 ∧
        ∀ c2 ∈ pre, (g.connD c2).role = ConnRole.input →
          moveAndConnect_ g (some c2) (some d) = none := by
  intro l
  induction l with
  | nil =>
    intro g2
    constructor
    · intro h
      exact absurd h (by simp [firstInputSuccess])
    · rintro ⟨pre, c, post, hl, _⟩
      cases pre <;> exact absurd hl (by simp)
  | cons a l ih =>
    intro g2
    constructor
    · intro h
      unfold firstInputSuccess at h
      by_cases hrole : (g.connD a).role = ConnRole.input
      · rw [if_pos hrole] at h
        cases hmac : moveAndConnect_ g (some a) (some d) with
        | some gg =>
          rw [hmac] at h
          rw [Option.some_inj] at h
          exact ⟨[], a, l, rfl, hrole, by rw [hmac, h], by simp⟩
        | none =>
          rw [hmac] at h
          obtain ⟨pre, c, post, hl, hc, hm2, hpre⟩ := (ih g2).mp h
          refine ⟨a :: pre, c, post, by simp [hl], hc, hm2, ?_⟩
          intro c2 hc2 hrc2
          rcases List.mem_cons.mp hc2 with he | he
          · rw [he]
            exact hmac
          · exact hpre c2 he hrc2
      · rw [if_neg hrole] at h
        obtain ⟨pre, c, post, hl, hc, hm2, hpre⟩ := (ih g2).mp h
        refine ⟨a :: pre, c, post, by simp [hl], hc, hm2, ?_⟩
        intro c2 hc2 hrc2
        rcases List.mem_cons.mp hc2 with he | he
        · rw [he] at hrc2
          exact absurd hrc2 hrole
        · exact hpre c2 he hrc2
    · rintro ⟨pre, c, post, hl, hc, hm2, hpre⟩
      cases pre with
      | nil =>
        simp only [List.nil_append] at hl
        obtain ⟨ha, hlrest⟩ : a = c ∧ l = post := by
          refine ⟨?_, ?_⟩ <;> injection hl <;> assumption
        unfold firstInputSuccess
        rw [if_pos (by rw [ha]; exact hc), show moveAndConnect_ g (some a) (some d) =
          some g2 by rw [ha]; exact hm2]
      | cons p pre2 =>
        obtain ⟨hap, hlrest⟩ : a = p ∧ l = pre2 ++ c :: post := by
          refine ⟨?_, ?_⟩ <;> injection hl <;> assumption
        have htail : firstInputSuccess g l d = some g2 :=
          (ih g2).mpr ⟨pre2, c, post, hlrest, hc, hm2, fun c2 h2 hr2 =>
            hpre c2 (List.mem_cons.mpr (Or.inr h2)) hr2⟩
        unfold firstInputSuccess
        by_cases hrole : (g.connD a).role = ConnRole.input
        · rw [if_pos hrole]
          have hmacA : moveAndConnect_ g (some a) (some d) = none := by
            rw [hap]
            exact hpre p (List.mem_cons.mpr (Or.inl rfl)) (by rw [← hap]; exact hrole)
          rw [hmacA]
          exact htail
        · rw [if_neg hrole]
          exact htail

/-- C5: `insertBlock` offers exactly the connection on the block determined
by the destination's role (next for a previous destination, previous for a
next destination, output for an input destination, and for an output
destination the first input-role connection in declaration order whose join
succeeds); when nothing compatible is offered, in particular when the
destination is an input and the block has no output connection, it reports
that the block cannot be inserted, returns failure, and leaves the graph
unchanged. -/
theorem insertBlock_offers_connection_by_destination_role (g : Graph)
    (b : BlockId) (d : ConnId) :
    ((g.connD d).role = ConnRole.previous → insertBlock g b d =
      offerResult g (moveAndConnect_ g (g.blockD b).nextConnection (some d))) ∧
    ((g.connD d).role = ConnRole.next → insertBlock g b d =
      offerResult g (moveAndConnect_ g (g.blockD b).previousConnection (some d))) ∧
    ((g.connD d).role = ConnRole.input → insertBlock g b d =
      offerResult g (moveAndConnect_ g (g.blockD b).outputConnection (some d))) ∧
    ((g.connD d).role = ConnRole.input → (g.blockD b).outputConnection = none →
      insertBlock g b d = (false, g,
        [⟨LogLevel.warn, "This block can not be inserted at the marked location."⟩])) ∧
    ((g.connD d).role = ConnRole.output →
      insertBlock g b d = offerResult g (firstInputSuccess g (g.blockD b).inputList d) ∧
      (∀ g2, firstInputSuccess g (g.blockD b).inputList d = some g2 ↔
        ∃ pre c post, (g.blockD b).inputList = pre ++ c :: post ∧
          (g.connD c).role = ConnRole.input ∧
          moveAndConnect_ g (some c) (some d) = some g2 ∧
          ∀ c2 ∈ pre, (g.connD c2).role = ConnRole.input →
            moveAndConnect_ g (some c2) (some d) = none)) ∧
    ((insertBlock g b d).1 = false → (insertBlock g b d).2.1 = g ∧
      (insertBlock g b d).2.2 =
        [⟨LogLevel.warn, "This block can not be inserted at the marked location."⟩]) := by
  refine ⟨?_, ?_, ?_, ?_, ?_, ?_⟩
  · intro hr
    rw [insertBlock_def, hr]
  · intro hr
    rw [insertBlock_def, hr]
  · intro hr
    rw [insertBlock_def, hr]
  · intro hr hout
    rw [insertBlock_def, hr, hout]
    rfl
  · intro hr
    exact ⟨by rw [insertBlock_def, hr], fun g2 =>
      firstInputSuccess_some_iff g d (g.blockD b).inputList g2⟩
  · intro hfail
    rw [insertBlock_def] at hfail ⊢
    cases hat : (match (g.connD d).role with
        | ConnRole.previous => moveAndConnect_ g (g.blockD b).nextConnection (some d)
        | ConnRole.next => moveAndConnect_ g (g.blockD b).previousConnection (some d)
        | ConnRole.input => moveAndConnect_ g (g.blockD b).outputConnection (some d)
        | ConnRole.output => firstInputSuccess g (g.blockD b).inputList d) with
    | some gg =>
      rw [hat] at hfail
      exact absurd hfail (by simp [offerResult])
    | none =>
      exact ⟨rfl, rfl⟩

/-- A statement block 3 with a next connection 30, and a destination block 4
whose previous connection 40 is marked; inserting 3 at 40 offers 30. -/
def gC5ex : Graph :=
  ⟨[⟨3, none, some 30, none, [], false, ⟨0, 0⟩⟩,
    ⟨4, some 40, none, none, [], false, ⟨0, 0⟩⟩],
   [⟨30, 3, ConnRole.next, none, none⟩,
    ⟨40, 4, ConnRole.previous, none, none⟩], none⟩

theorem insertBlock_offers_connection_by_destination_role_witness :
    (gC5ex.connD 40).role = ConnRole.previous ∧
    insertBlock gC5ex 3 40 =
      offerResult gC5ex (moveAndConnect_ gC5ex (gC5ex.blockD 3).nextConnection (some 40)) ∧
    (insertBlock gC5ex 3 40).1 = true :=
  ⟨by decide,
   (insertBlock_offers_connection_by_destination_role gC5ex 3 40).1 (by decide),
   by decide⟩

theorem roleNodeType_ne_field (r : ConnRole) :
    roleNodeType r ≠ NodeType.field := by
  cases r <;> decide

theorem roleNodeType_ne_workspace (r : ConnRole) :
    roleNodeType r ≠ NodeType.workspace := by
  cases r <;> decide

/-- The workspace-marker arm of the `modify` body: once the marker is a
workspace node and the cursor passes the kind checks, the three cursor kinds
route into the move-to-workspace tail. -/
theorem modifyNodes_workspace_marker (st : NavState) (coord : Coordinate)
    (cn : ASTNode)
    (h1 : cn.getType ≠ NodeType.field) (h2 : cn.getType ≠ NodeType.workspace) :
    modifyNodes st (ASTNode.workspaceNode coord) cn =
      match cn with
      | ASTNode.connectionNode ccid r =>
        if r = ConnRole.input ∨ r = ConnRole.next then
          (false,
            warnSt st "Cannot move a next or input connection to the workspace.")
        else moveBlockToWs st ((st.graph.connD ccid).sourceBlock) coord
      | ASTNode.blockNode b => moveBlockToWs st b coord
      | ASTNode.stackNode b => moveBlockToWs st b coord
      | _ => (false, st) := by
  unfold modifyNodes
  rw [if_neg (show ¬((ASTNode.workspaceNode coord).getType = NodeType.field)
        from fun h => NodeType.noConfusion h),
      if_neg (show ¬((ASTNode.workspaceNode coord).getType = NodeType.block)
        from fun h => NodeType.noConfusion h),
      if_neg (show ¬((ASTNode.workspaceNode coord).getType = NodeType.stack)
        from fun h => NodeType.noConfusion h),
      if_neg h1, if_neg h2,
      if_neg (show ¬((ASTNode.workspaceNode coord).isConnection = true)
        from fun h => Bool.noConfusion h),
      if_pos (show (ASTNode.workspaceNode coord).getType = NodeType.workspace
        from rfl)]
  cases cn <;> rfl

/-- C6: with a Workspace marker and a Connection, Block, or Stack cursor,
`modify` rejects an input- or next-role cursor connection with a report and
no mutation, otherwise takes the cursor's source block and hands it to the
move-to-workspace tail, which rejects a shadow block, detaches a parented
block, moves it to the marked coordinate and succeeds. -/
theorem modify_moves_block_to_marked_workspace_point (st : NavState)
    (coord : Coordinate) (cn : ASTNode)
    (hm : st.markerNode = some (ASTNode.workspaceNode coord))
    (hc : st.cursorNode = some cn) :
    (∀ c r, cn = ASTNode.connectionNode c r →
      ((r = ConnRole.input ∨ r = ConnRole.next) →
        modify st = (false,
          warnSt st "Cannot move a next or input connection to the workspace.")) ∧
      (r ≠ ConnRole.input → r ≠ ConnRole.next →
        modify st = moveBlockToWs st ((st.graph.connD c).sourceBlock) coord)) ∧
    (∀ b, cn = ASTNode.blockNode b → modify st = moveBlockToWs st b coord) ∧
    (∀ b, cn = ASTNode.stackNode b → modify st = moveBlockToWs st b coord) ∧
    (∀ b, moveBlockToWs st b coord =
      if (st.graph.blockD b).shadow = true then
        (false, warnSt st "Cannot move a shadow block to the workspace.")
      else
        (true, { st with graph :=
          (if (st.graph.parentOf b).isSome = true then st.graph.unplug b
           else st.graph).moveTo b coord })) := by
  refine ⟨?_, ?_, ?_, fun b => rfl⟩
  · intro c r he
    subst he
    constructor
    · intro hr
      rw [modify_eq_nodes hm hc,
        modifyNodes_workspace_marker st coord (ASTNode.connectionNode c r)
          (roleNodeType_ne_field r) (roleNodeType_ne_workspace r)]
      dsimp only
      rw [if_pos hr]
    · intro hri hrn
      rw [modify_eq_nodes hm hc,
        modifyNodes_workspace_marker st coord (ASTNode.connectionNode c r)
          (roleNodeType_ne_field r) (roleNodeType_ne_workspace r)]
      dsimp only
      rw [if_neg (show ¬(r = ConnRole.input ∨ r = ConnRole.next) from
        fun h => h.elim hri hrn)]
  · intro b he
    subst he
    rw [modify_eq_nodes hm hc,
      modifyNodes_workspace_marker st coord _ (fun h => NodeType.noConfusion h)
        (fun h => NodeType.noConfusion h)]
  · intro b he
    subst he
    rw [modify_eq_nodes hm hc,
      modifyNodes_workspace_marker st coord _ (fun h => NodeType.noConfusion h)
        (fun h => NodeType.noConfusion h)]

/-- A lone non-shadow block 3 with no connections. -/
def gC6ex : Graph :=
  ⟨[⟨3, none, none, none, [], false, ⟨0, 0⟩⟩], [], none⟩

/-- Workspace marker at (7, 8) with the cursor on block 3. -/
def stC6ex : NavState :=
  ⟨gC6ex, some (ASTNode.blockNode 3), some (ASTNode.workspaceNode ⟨7, 8⟩),
   NavContext.stateWs, none, [], none, true, []⟩

theorem modify_moves_block_to_marked_workspace_point_witness :
    modify stC6ex = moveBlockToWs stC6ex 3 ⟨7, 8⟩ ∧ (modify stC6ex).1 = true :=
  ⟨(modify_moves_block_to_marked_workspace_point stC6ex ⟨7, 8⟩
      (ASTNode.blockNode 3) rfl rfl).2.1 3 rfl,
   by decide⟩

theorem connD_bringToFront (g : Graph) (b : BlockId) (c : ConnId) :
    (g.bringToFront b).connD c = g.connD c := rfl

theorem connD_bumpAwayFrom (g : Graph) (i s c : ConnId) :
    ((g.bumpAwayFrom i s).connD c) = g.connD c := rfl

theorem frontBlock_bringToFront (g : Graph) (b : BlockId) :
    (g.bringToFront b).frontBlock = some b := rfl

theorem chainRoot_congr {f f2 : Nat → Option Nat} (h : ∀ x, f x = f2 x) :
    ∀ n b, chainRoot f n b = chainRoot f2 n b := by
  intro n
  induction n with
  | zero => intro b; rfl
  | succ k ih =>
    intro b
    unfold chainRoot
    rw [h b]
    cases hfb : f2 b with
    | none => rfl
    | some p => exact ih p

theorem getRootBlock_bringToFront (g : Graph) (b x : BlockId) :
    (g.bringToFront b).getRootBlock x = g.getRootBlock x := by
  unfold Graph.getRootBlock
  exact chainRoot_congr (fun y => parentOf_bringToFront g b y) _ _

/-- Severing a joined connection also clears the target of its partner. -/
theorem connD_disconnect_partner_target (g : Graph) {c t : ConnId}
    (h : (g.connD c).targetConnection = some t) :
    ((g.disconnectConn c).connD t).targetConnection = none := by
  rcases disconnectConn_cases g c with ⟨hn, _⟩ | ⟨t2, ht2, hg⟩
  · rw [hn] at h
    exact Option.noConfusion h
  · rw [ht2] at h
    have he : t2 = t := by injection h
    subst he
    rw [hg]
    unfold Graph.connD
    rw [findConn_mapConns (targetOnly_clearTargetF c t2)]
    cases hfc : g.findConn t2 with
    | none => rfl
    | some cn =>
      simp only [Option.map_some', Option.getD_some]
      simp [clearTargetF, (mem_of_findConn hfc).2]

/-- On a wellformed graph a live join is mutual: the target's target points
back. -/
theorem connD_target_mutual {g : Graph} (hW : WF g) {c t : ConnId}
    (h : (g.connD c).targetConnection = some t) :
    (g.connD t).targetConnection = some c := by
  have hfc : g.findConn c = some (g.connD c) := by
    unfold Graph.connD at *
    cases hf : g.findConn c with
    | none =>
      rw [hf] at h
      exact absurd h (by simp [defaultConn])
    | some cn => rfl
  have hmem := mem_of_findConn hfc
  obtain ⟨_, _, _, _, _, _, _, _, p9⟩ := hW
  have h9 := (p9 (g.connD c) hmem.1 t h).2
  rw [hmem.2] at h9
  exact h9

/-- C7: `disconnectBlocks` logs and leaves the state alone when the cursor is
not on a connection, when the cursor's connection is unjoined, or when the
inferior side of the live join sits on a shadow block; otherwise it severs
the join on both sides, bumps the inferior subtree away, brings the superior
side's root block to the front of the draw order, and relocates the cursor
onto the now-freed superior connection, with no diagnostic. -/
theorem disconnectBlocks_severs_live_join (st : NavState) :
    (∀ cn, st.cursorNode = some cn → cn.isConnection = false →
      disconnectBlocks st = Except.ok
        (logSt st "Cannot disconnect blocks when the cursor is not on a connection")) ∧
    (∀ c r, st.cursorNode = some (ASTNode.connectionNode c r) →
      (st.graph.connD c).targetConnection = none →
      disconnectBlocks st =
        Except.ok (logSt st "Cannot disconnect unconnected connection")) ∧
    (∀ c r t sup inf, st.cursorNode = some (ASTNode.connectionNode c r) →
      (st.graph.connD c).targetConnection = some t →
      sup = (if st.graph.isSuperior c then c else t) →
      inf = (if st.graph.isSuperior c then t else c) →
      ((st.graph.blockD ((st.graph.connD inf).sourceBlock)).shadow = true →
        disconnectBlocks st =
          Except.ok (logSt st "Cannot disconnect a shadow block")) ∧
      ((st.graph.blockD ((st.graph.connD inf).sourceBlock)).shadow = false →
        WF st.graph →
        ∃ st2, disconnectBlocks st = Except.ok st2 ∧
          (st2.graph.connD sup).targetConnection = none ∧
          (st2.graph.connD inf).targetConnection = none ∧
          st2.graph.frontBlock =
            some (st2.graph.getRootBlock ((st2.graph.connD sup).sourceBlock)) ∧
          st2.cursorNode = some (createConnectionNode st2.graph sup) ∧
          st2.graph =
            ((st.graph.disconnectConn sup).bumpAwayFrom inf sup).bringToFront
              (((st.graph.disconnectConn sup).bumpAwayFrom inf sup).getRootBlock
                ((((st.graph.disconnectConn sup).bumpAwayFrom inf sup).connD
                  sup).sourceBlock)) ∧
          st2.log = st.log ∧ st2.markerNode = st.markerNode ∧
          st2.context = st.context)) := by
  refine ⟨?_, ?_, ?_⟩
  · intro cn hc hnc
    rw [disconnectBlocks_at hc]
    cases cn with
    | connectionNode c0 r0 => simp [ASTNode.isConnection] at hnc
    | fieldNode b f => rfl
    | blockNode b => rfl
    | stackNode b => rfl
    | workspaceNode coord => rfl
  · intro c r hc ht
    rw [disconnectBlocks_at hc]
    simp only [disconnectBlocksAt, ht]
  · intro c r t sup inf hc ht hsup hinf
    subst hsup
    subst hinf
    constructor
    · intro hsh
      rw [disconnectBlocks_at hc]
      simp only [disconnectBlocksAt, ht]
      rw [if_pos hsh]
    · intro hsh hW
      rw [disconnectBlocks_at hc]
      simp only [disconnectBlocksAt, ht]
      rw [if_neg (show ¬((st.graph.blockD ((st.graph.connD
          (if st.graph.isSuperior c then t else c)).sourceBlock)).shadow = true)
        by rw [hsh]; exact fun h2 => Bool.noConfusion h2)]
      refine ⟨_, rfl, ?_, ?_, ?_, rfl, rfl, rfl, rfl, rfl⟩
      · show (((st.graph.disconnectConn
            (if st.graph.isSuperior c then c else t)).bumpAwayFrom
              (if st.graph.isSuperior c then t else c)
              (if st.graph.isSuperior c then c else t)).bringToFront _ |>.connD
            (if st.graph.isSuperior c then c else t)).targetConnection = none
        rw [connD_bringToFront, connD_bumpAwayFrom]
        exact connD_disconnect_self_target st.graph _
      · show (((st.graph.disconnectConn
            (if st.graph.isSuperior c then c else t)).bumpAwayFrom
              (if st.graph.isSuperior c then t else c)
              (if st.graph.isSuperior c then c else t)).bringToFront _ |>.connD
            (if st.graph.isSuperior c then t else c)).targetConnection = none
        rw [connD_bringToFront, connD_bumpAwayFrom]
        by_cases hS : st.graph.isSuperior c = true
        · rw [if_pos hS, if_pos hS]
          exact connD_disconnect_partner_target st.graph ht
        · rw [if_neg hS, if_neg hS]
          exact connD_disconnect_partner_target st.graph
            (connD_target_mutual hW ht)
      · rw [frontBlock_bringToFront, getRootBlock_bringToFront,
          connD_bringToFront]

/-- Two statement blocks with a live next/previous join 10 ↔ 20. -/
def gC7ex : Graph :=
  ⟨[⟨1, none, some 10, none, [], false, ⟨0, 0⟩⟩,
    ⟨2, some 20, none, none, [], false, ⟨0, 0⟩⟩],
   [⟨10, 1, ConnRole.next, some 20, none⟩,
    ⟨20, 2, ConnRole.previous, some 10, none⟩], none⟩

/-- Cursor on the superior connection 10 of the live join. -/
def stC7ex : NavState :=
  ⟨gC7ex, some (ASTNode.connectionNode 10 ConnRole.next), none,
   NavContext.stateWs, none, [], none, true, []⟩

theorem disconnectBlocks_severs_live_join_witness :
    WF gC7ex ∧
    ∃ st2, disconnectBlocks stC7ex = Except.ok st2 ∧
      (st2.graph.connD 10).targetConnection = none ∧
      (st2.graph.connD 20).targetConnection = none ∧
      st2.graph.frontBlock =
        some (st2.graph.getRootBlock ((st2.graph.connD 10).sourceBlock)) ∧
      st2.cursorNode = some (createConnectionNode st2.graph 10) ∧
      st2.graph =
        ((stC7ex.graph.disconnectConn 10).bumpAwayFrom 20 10).bringToFront
          (((stC7ex.graph.disconnectConn 10).bumpAwayFrom 20 10).getRootBlock
            ((((stC7ex.graph.disconnectConn 10).bumpAwayFrom 20 10).connD
              10).sourceBlock)) ∧
      st2.log = stC7ex.log ∧ st2.markerNode = stC7ex.markerNode ∧
      st2.context = stC7ex.context :=
  ⟨by decide,
   ((disconnectBlocks_severs_live_join stC7ex).2.2 10 ConnRole.next 20 10 20
       rfl (by decide) (by decide) (by decide)).2 (by decide) (by decide)⟩

/-- An environment with a toolbox and a visible, empty flyout; the traversal
and widget delegates are inert. -/
def envC8ex : Env :=
  ⟨true, some 0, true, [], none,
   fun x => x, fun x => x, fun x => x, fun x => x,
   fun _ => none, fun _ => none, fun _ => false, fun _ => none, fun _ => none,
   fun _ => false, fun g _ => (g, 0)⟩

/-- Workspace focus with the cursor holding no location. -/
def stC8ex : NavState :=
  ⟨⟨[], [], none⟩, none, none, NavContext.stateWs, none, [], none, true, []⟩

/-- C8: the claim says no (context, action) pair throws, regardless of the
cursor's state; but in the Workspace context the "disconnect" action reaches
`disconnectBlocks`, which calls `isConnection` on the cursor's current node
with no null check, so a cursor holding no location makes the dispatch
throw a TypeError instead of returning "handled" or "unhandled". -/
theorem onBlocklyAction_disconnect_null_cursor_throws :
    onBlocklyAction envC8ex stC8ex "disconnect" =
      Except.error "TypeError: cannot read isConnection of null" := rfl

theorem context_selectNextBlockInFlyout (env : Env) (st : NavState) :
    (selectNextBlockInFlyout env st).context = st.context := by
  unfold selectNextBlockInFlyout
  repeat' first | split | dsimp only
  all_goals rfl

theorem context_selectPreviousBlockInFlyout (env : Env) (st : NavState) :
    (selectPreviousBlockInFlyout env st).context = st.context := by
  unfold selectPreviousBlockInFlyout
  repeat' first | split | dsimp only
  all_goals rfl

theorem context_focusToolbox {env : Env} {st st2 : NavState}
    (h : focusToolbox env st = Except.ok st2) :
    st2.context = NavContext.stateToolbox := by
  unfold focusToolbox at h
  by_cases ht : env.hasToolbox = true
  · rw [if_pos ht] at h
    injection h with h
    subst h
    repeat' first | split | dsimp only
    all_goals rfl
  · rw [if_neg ht] at h
    exact Except.noConfusion h

theorem context_focusFlyout (env : Env) (st : NavState) :
    (focusFlyout env st).context = NavContext.stateFlyout := by
  unfold focusFlyout
  repeat' first | split | dsimp only
  all_goals rfl

theorem context_nextCategory (env : Env) (st : NavState) :
    (nextCategory env st).context = st.context := by
  unfold nextCategory
  repeat' first | split | dsimp only
  all_goals rfl

theorem context_previousCategory (env : Env) (st : NavState) :
    (previousCategory env st).context = st.context := by
  unfold previousCategory
  repeat' first | split | dsimp only
  all_goals rfl

theorem context_outCategory (env : Env) (st : NavState) :
    (outCategory env st).context = st.context := by
  unfold outCategory
  repeat' first | split | dsimp only
  all_goals rfl

theorem context_inCategory (env : Env) (st : NavState) :
    (inCategory env st).context = st.context ∨
      (inCategory env st).context = NavContext.stateFlyout := by
  unfold inCategory
  repeat' first | split | dsimp only
  all_goals first
    | exact Or.inl rfl
    | exact Or.inr (context_focusFlyout env st)

/-- An environment whose flyout is visible; block creation returns block 5. -/
def envC9ex : Env :=
  ⟨true, some 0, true, [7], none,
   fun x => x, fun x => x, fun x => x, fun x => x,
   fun _ => none, fun _ => none, fun _ => false, fun _ => none, fun _ => none,
   fun _ => false, fun g _ => (g, 5)⟩

/-- Flyout focus with block 7 highlighted and no marked location, so the
insert run by "mark" is bound to fail. -/
def stC9ex : NavState :=
  ⟨⟨[], [], none⟩, none, none, NavContext.stateFlyout, none, [], some 7,
   true, []⟩

/-- C9 counterexample: in the Flyout context, the "mark" action runs an
insert-from-flyout that fails (no marked location), reports the failure, and
still moves the focus to the Workspace context, contradicting the claim that
a failed insert does not move focus to the workspace. -/
theorem flyout_mark_failed_insert_still_focuses_ws :
    ∃ st2, onBlocklyAction envC9ex stC9ex "mark" = Except.ok (true, st2) ∧
      st2.context = NavContext.stateWs ∧
      st2.log = [⟨LogLevel.warn, "Cannot insert with no marked node."⟩,
        ⟨LogLevel.warn,
          "Something went wrong while inserting a block from the flyout."⟩] :=
  ⟨_, rfl, rfl, rfl⟩

/-- C9 (amended): focus moves from the Flyout or Toolbox context to the
Workspace context only on the "exit" action, or on a Flyout "mark" action
with the flyout visible — that is, after an insert-from-flyout attempt,
whether it succeeds or fails; a failed insert still focuses the workspace. -/
theorem flyout_to_ws_only_on_exit_or_insert (env : Env) (st : NavState)
    (a : String) (b : Bool) (st2 : NavState)
    (hctx : st.context = NavContext.stateFlyout ∨
      st.context = NavContext.stateToolbox)
    (h : onBlocklyAction env st a = Except.ok (b, st2))
    (hws : st2.context = NavContext.stateWs) :
    a = "exit" ∨ (st.context = NavContext.stateFlyout ∧ a = "mark" ∧
      env.flyoutVisible = true) := by
  rcases hctx with hf | ht
  · unfold onBlocklyAction at h
    rw [hf] at h
    unfold flyoutOnAction_ at h
    by_cases h1 : a = "previous"
    · rw [if_pos h1, Except.ok.injEq, Prod.mk.injEq] at h
      rw [← h.2, context_selectPreviousBlockInFlyout, hf] at hws
      exact absurd hws (by decide)
    rw [if_neg h1] at h
    by_cases h2 : a = "out"
    · rw [if_pos h2] at h
      cases hft : focusToolbox env st with
      | error e =>
        rw [hft] at h
        exact Except.noConfusion h
      | ok s =>
        rw [hft] at h
        rw [show (Except.ok s : Except String NavState).map
            (fun s => (true, s)) = Except.ok (true, s) from rfl,
          Except.ok.injEq, Prod.mk.injEq] at h
        rw [← h.2, context_focusToolbox hft] at hws
        exact absurd hws (by decide)
    rw [if_neg h2] at h
    by_cases h3 : a = "next"
    · rw [if_pos h3, Except.ok.injEq, Prod.mk.injEq] at h
      rw [← h.2, context_selectNextBlockInFlyout, hf] at hws
      exact absurd hws (by decide)
    rw [if_neg h3] at h
    by_cases h4 : a = "mark"
    · by_cases hfv : env.flyoutVisible = true
      · exact Or.inr ⟨hf, h4, hfv⟩
      · rw [if_pos h4] at h
        unfold insertFromFlyout at h
        rw [if_pos hfv] at h
        rw [show (Except.ok (warnSt st
            "Trying to insert from the flyout when the flyout does not  exist or is not visible") :
            Except String NavState).map (fun s => (true, s)) =
            Except.ok (true, warnSt st
              "Trying to insert from the flyout when the flyout does not  exist or is not visible")
          from rfl, Except.ok.injEq, Prod.mk.injEq] at h
        rw [← h.2] at hws
        rw [show (warnSt st
            "Trying to insert from the flyout when the flyout does not  exist or is not visible").context =
            st.context from rfl, hf] at hws
        exact absurd hws (by decide)
    rw [if_neg h4] at h
    by_cases h5 : a = "exit"
    · exact Or.inl h5
    · rw [if_neg h5, Except.ok.injEq, Prod.mk.injEq] at h
      rw [← h.2, hf] at hws
      exact absurd hws (by decide)
  · unfold onBlocklyAction at h
    rw [ht] at h
    unfold toolboxOnAction_ at h
    by_cases h1 : a = "previous"
    · rw [if_pos h1, Except.ok.injEq, Prod.mk.injEq] at h
      rw [← h.2, context_previousCategory, ht] at hws
      exact absurd hws (by decide)
    rw [if_neg h1] at h
    by_cases h2 : a = "out"
    · rw [if_pos h2, Except.ok.injEq, Prod.mk.injEq] at h
      rw [← h.2, context_outCategory, ht] at hws
      exact absurd hws (by decide)
    rw [if_neg h2] at h
    by_cases h3 : a = "next"
    · rw [if_pos h3, Except.ok.injEq, Prod.mk.injEq] at h
      rw [← h.2, context_nextCategory, ht] at hws
      exact absurd hws (by decide)
    rw [if_neg h3] at h
    by_cases h4 : a = "in"
    · rw [if_pos h4, Except.ok.injEq, Prod.mk.injEq] at h
      rw [← h.2] at hws
      rcases context_inCategory env st with hcx | hcx
      · rw [hcx, ht] at hws
        exact absurd hws (by decide)
      · rw [hcx] at hws
        exact absurd hws (by decide)
    rw [if_neg h4] at h
    by_cases h5 : a = "exit"
    · exact Or.inl h5
    · rw [if_neg h5, Except.ok.injEq, Prod.mk.injEq] at h
      rw [← h.2, ht] at hws
      exact absurd hws (by decide)

theorem flyout_to_ws_only_on_exit_or_insert_witness :
    ("exit" = "exit" ∨ (stC9ex.context = NavContext.stateFlyout ∧
      "exit" = "mark" ∧ envC9ex.flyoutVisible = true)) :=
  flyout_to_ws_only_on_exit_or_insert envC9ex stC9ex "exit" true
    (focusWorkspace envC9ex stC9ex) (Or.inl rfl) rfl rfl

/-- C10 (implicit): entering the toolbox or the flyout marks at the cursor as
a side effect when no mark is held: a successful `focusToolbox`, and every
`focusFlyout`, leaves the marker at the cursor's current location when the
marker held none, and leaves an existing mark unchanged.  The spec never
states that opening the toolbox or flyout can set the marker. -/
theorem focus_toolbox_flyout_set_marker_from_cursor (env : Env) (st : NavState) :
    (∀ st2, focusToolbox env st = Except.ok st2 →
      st2.markerNode =
        (if st.markerNode = none then st.cursorNode else st.markerNode)) ∧
    (focusFlyout env st).markerNode =
      (if st.markerNode = none then st.cursorNode else st.markerNode) := by
  constructor
  · intro st2 h
    unfold focusToolbox at h
    by_cases htb : env.hasToolbox = true
    · rw [if_pos htb] at h
      injection h with h
      subst h
      by_cases hm : st.markerNode = none
      · simp [resetFlyout, markAtCursor, apply_ite, hm]
      · simp [resetFlyout, markAtCursor, apply_ite, hm]
    · rw [if_neg htb] at h
      exact Except.noConfusion h
  · unfold focusFlyout
    by_cases hm : st.markerNode = none
    · cases env.flyoutBlocks with
      | nil => simp [markAtCursor, apply_ite, hm]
      | cons tb rest => simp [markAtCursor, apply_ite, hm]
    · cases env.flyoutBlocks with
      | nil => simp [markAtCursor, apply_ite, hm]
      | cons tb rest => simp [markAtCursor, apply_ite, hm]

/-- An environment with a toolbox and one flyout block. -/
def envC10ex : Env :=
  ⟨true, some 1, true, [4], none,
   fun x => x, fun x => x, fun x => x, fun x => x,
   fun _ => none, fun _ => none, fun _ => false, fun _ => none, fun _ => none,
   fun _ => false, fun g _ => (g, 0)⟩

/-- Workspace focus, cursor at a workspace point, no mark held. -/
def stC10ex : NavState :=
  ⟨⟨[], [], none⟩, some (ASTNode.workspaceNode ⟨1, 2⟩), none,
   NavContext.stateWs, none, [], none, true, []⟩

theorem focus_toolbox_flyout_set_marker_from_cursor_witness :
    (∃ st2, focusToolbox envC10ex stC10ex = Except.ok st2 ∧
      st2.markerNode = (if stC10ex.markerNode = none then stC10ex.cursorNode
        else stC10ex.markerNode)) ∧
    (focusFlyout envC10ex stC10ex).markerNode =
      (if stC10ex.markerNode = none then stC10ex.cursorNode
        else stC10ex.markerNode) :=
  ⟨⟨_, rfl, (focus_toolbox_flyout_set_marker_from_cursor envC10ex stC10ex).1
      _ rfl⟩,
   (focus_toolbox_flyout_set_marker_from_cursor envC10ex stC10ex).2⟩

end BlocklyNav
